import Mathlib

/-!
# Pong (win32_platform.cpp): simulation engine

A shallow embedding of the game logic of `src/Basic Game/win32_platform.cpp`.

Modelling conventions.

* C++ `float` values are modelled by exact arithmetic in a linearly ordered
  field `α` (the definitions run at `α = ℚ`; statements about `sqrtf`, `cosf`
  and `sinf` are made at `α = ℝ`).  Rounding, infinities and NaN are outside
  this model.
* Where rounding decides a property, the game logic is embedded a second
  time with every `float` operation rounded to binary32 (the definitions
  named `_f32`), and evaluated at concrete inputs.
* The three libm calls of the source (`sqrtf`, `cosf`, `sinf`) are the fields
  of a `Libm α` value passed to the functions that call them; `fabsf` is the
  absolute value of the field.
* The globals `g_game` and `g_window.running` and the hidden state of `rand()`
  are the fields of `World`; a function that writes a global takes a world and
  returns the new one.  `rand()` pops the head of a stream of natural numbers.
* `int` scores are mathematical integers (signed overflow is undefined
  behaviour in the source and is outside the model).
-/

namespace Pong

/-! ## Constants (lines 14-30) -/

section Constants

variable {α : Type} [LinearOrderedField α]

def LOGICAL_WIDTH : Int := 1280
def LOGICAL_HEIGHT : Int := 720

def PADDLE_WIDTH : α := 18
def PADDLE_HEIGHT : α := 115
def PADDLE_ACCEL : α := 3600
def PADDLE_MAX_SPEED : α := 760
def PADDLE_FRICTION : α := 10

def BALL_SIZE : α := 14
def BALL_SPEED_START : α := 500
def BALL_SPEED_MAX : α := 1100

def AI_DEAD_ZONE : α := 8
def AI_ACCEL_SCALE : α := 0.90

def FIXED_DT : α := 1 / 60

end Constants

/-! ## Types (lines 36-95) -/

structure Vec2 (α : Type) where
  x : α
  y : α

structure RectF (α : Type) where
  x : α
  y : α
  w : α
  h : α

structure Paddle (α : Type) where
  rect : RectF α
  vy : α

structure Ball (α : Type) where
  rect : RectF α
  vel : Vec2 α

inductive GameMode where
  | GAME_MENU
  | GAME_PLAYING
  | GAME_PAUSED
  deriving DecidableEq, Repr

structure GameState (α : Type) where
  player : Paddle α
  enemy : Paddle α
  ball : Ball α
  player_score : Int
  enemy_score : Int
  mode : GameMode

structure InputState where
  up : Bool
  down : Bool
  start_pressed : Bool
  pause_pressed : Bool
  reset_pressed : Bool
  fullscreen_pressed : Bool
  quit_pressed : Bool

/-- The libm functions the game logic calls. -/
structure Libm (α : Type) where
  sqrtf : α → α
  cosf : α → α
  sinf : α → α

/-- The mutable globals of the program that the game logic touches:
`g_game`, `g_window.running`, and the sequence of values the coming calls of
`rand()` return. -/
structure World (α : Type) where
  g_game : GameState α
  running : Bool
  rand_seq : Nat → Nat

/-! Equality of game states is decidable when equality of the numbers is. -/

deriving instance DecidableEq for Vec2
deriving instance DecidableEq for RectF
deriving instance DecidableEq for Paddle
deriving instance DecidableEq for Ball
deriving instance DecidableEq for GameState

/-! ## Input (lines 615-646) -/

/-- The key states `GetAsyncKeyState` reports in one call of `poll_input`
(bit 0x8000 of each key). -/
structure KeyState where
  key_w : Bool
  key_up : Bool
  key_s : Bool
  key_down : Bool
  key_space : Bool
  key_p : Bool
  key_r : Bool
  key_f11 : Bool
  key_escape : Bool

/-- The static locals of `poll_input`. -/
structure PrevKeys where
  prev_space : Bool
  prev_p : Bool
  prev_r : Bool
  prev_f11 : Bool
  prev_escape : Bool

/-- Lines 615-646: the polled input and the new values of the static locals. -/
def poll_input (k : KeyState) (p : PrevKeys) : InputState × PrevKeys :=
  let now_space := k.key_space
  let now_p := k.key_p
  let now_r := k.key_r
  let now_f11 := k.key_f11
  let now_escape := k.key_escape
  ({ up := k.key_w || k.key_up
     down := k.key_s || k.key_down
     start_pressed := now_space && !p.prev_space
     pause_pressed := (now_space && !p.prev_space) || (now_p && !p.prev_p)
     reset_pressed := now_r && !p.prev_r
     fullscreen_pressed := now_f11 && !p.prev_f11
     quit_pressed := now_escape && !p.prev_escape },
   { prev_space := now_space
     prev_p := now_p
     prev_r := now_r
     prev_f11 := now_f11
     prev_escape := now_escape })

/-- Only the space bar is down. -/
def space_down : KeyState :=
  ⟨false, false, false, false, true, false, false, false, false⟩

/-- Only the R key is down. -/
def r_down : KeyState :=
  ⟨false, false, false, false, false, false, true, false, false⟩

/-- No key was down at the previous poll (the initial statics). -/
def no_prev : PrevKeys :=
  ⟨false, false, false, false, false⟩

section Logic

variable {α : Type} [LinearOrderedField α]

/-- One call of `rand()`: the head of the stream, and the world with the
stream advanced. -/
def rand (w : World α) : Nat × World α :=
  (w.rand_seq 0, { w with rand_seq := fun n => w.rand_seq (n + 1) })

/-! ## Helpers (lines 109-125) -/

def clampf (v lo hi : α) : α :=
  if v < lo then lo
  else if v > hi then hi
  else v

def intersects (a b : RectF α) : Bool :=
  decide (a.x < b.x + b.w) && decide (a.x + a.w > b.x) &&
  decide (a.y < b.y + b.h) && decide (a.y + a.h > b.y)

/-! ## Game logic (lines 297-450) -/

/-- Lines 297-314. -/
def reset_positions (m : Libm α) (serve_dir : Int) (w : World α) : World α :=
  let g := w.g_game
  let player : Paddle α :=
    { rect := ⟨30, ((LOGICAL_HEIGHT : α) - PADDLE_HEIGHT) * 0.5, PADDLE_WIDTH, PADDLE_HEIGHT⟩
      vy := 0 }
  let enemy : Paddle α :=
    { rect := ⟨(LOGICAL_WIDTH : α) - 30 - PADDLE_WIDTH,
               ((LOGICAL_HEIGHT : α) - PADDLE_HEIGHT) * 0.5, PADDLE_WIDTH, PADDLE_HEIGHT⟩
      vy := 0 }
  let rect : RectF α :=
    ⟨((LOGICAL_WIDTH : α) - BALL_SIZE) * 0.5, ((LOGICAL_HEIGHT : α) - BALL_SIZE) * 0.5,
     BALL_SIZE, BALL_SIZE⟩
  let r := rand w
  let angle : α := (((r.1 % 120 : Nat) : α) - 60) * 0.0174532925
  let sx := m.cosf angle
  let sy := m.sinf angle
  let sx := if sx < 0.20 ∧ sx > -0.20 then (if sx < 0 then -0.20 else 0.20) else sx
  let dir : α := if serve_dir ≥ 0 then 1 else -1
  let vel : Vec2 α := ⟨abs sx * BALL_SPEED_START * dir, sy * BALL_SPEED_START⟩
  { r.2 with g_game := { g with player := player, enemy := enemy, ball := ⟨rect, vel⟩ } }

/-- Lines 316-321. -/
def init_game (m : Libm α) (w : World α) : World α :=
  let w := { w with g_game := { w.g_game with
    player_score := 0, enemy_score := 0, mode := GameMode.GAME_MENU } }
  let r := rand w
  reset_positions m (if r.1 % 2 ≠ 0 then 1 else -1) r.2

/-- Lines 324-334 of `apply_paddle_physics`: the velocity update and the
integration of the position, before the two bound checks. -/
def paddle_integrate (paddle : Paddle α) (input_axis dt : α) : Paddle α :=
  let accel := input_axis * PADDLE_ACCEL
  let vy := paddle.vy + accel * dt
  let vy :=
    if input_axis = 0 then
      let damping := 1 - PADDLE_FRICTION * dt
      let damping := if damping < 0 then 0 else damping
      vy * damping
    else vy
  let vy := clampf vy (-PADDLE_MAX_SPEED) PADDLE_MAX_SPEED
  { rect := { paddle.rect with y := paddle.rect.y + vy * dt }, vy := vy }

/-- Lines 336-339 of `apply_paddle_physics`: the lower bound check. -/
def paddle_clamp_low (paddle : Paddle α) : Paddle α :=
  if paddle.rect.y < 0 then { rect := { paddle.rect with y := 0 }, vy := 0 }
  else paddle

/-- Lines 341-345 of `apply_paddle_physics`: the upper bound check. -/
def paddle_clamp_high (paddle : Paddle α) : Paddle α :=
  let max_y := (LOGICAL_HEIGHT : α) - paddle.rect.h
  if paddle.rect.y > max_y then { rect := { paddle.rect with y := max_y }, vy := 0 }
  else paddle

/-- Lines 323-346. -/
def apply_paddle_physics (paddle : Paddle α) (input_axis dt : α) : Paddle α :=
  paddle_clamp_high (paddle_clamp_low (paddle_integrate paddle input_axis dt))

/-- Lines 348-358. -/
def update_enemy (dt : α) (g : GameState α) : GameState α :=
  let enemy_center := g.enemy.rect.y + g.enemy.rect.h * 0.5
  let target := g.ball.rect.y + g.ball.rect.h * 0.5
  let delta := target - enemy_center
  let axis : α := 0
  let axis : α := if delta > AI_DEAD_ZONE then 1 else axis
  let axis : α := if delta < -AI_DEAD_ZONE then -1 else axis
  { g with enemy := apply_paddle_physics g.enemy (axis * AI_ACCEL_SCALE) dt }

/-- Lines 360-379.  The paddle is read only, so it is passed by value. -/
def reflect_ball_from_paddle (m : Libm α) (paddle : Paddle α) (from_left : Bool)
    (g : GameState α) : GameState α :=
  let paddle_center := paddle.rect.y + paddle.rect.h * 0.5
  let ball_center := g.ball.rect.y + g.ball.rect.h * 0.5
  let hit := (ball_center - paddle_center) / (paddle.rect.h * 0.5)
  let hit := clampf hit (-1) 1
  let speed := m.sqrtf (g.ball.vel.x * g.ball.vel.x + g.ball.vel.y * g.ball.vel.y)
  let speed := speed * 1.05
  let speed := if speed > BALL_SPEED_MAX then BALL_SPEED_MAX else speed
  let nx : α := if from_left then 1 else -1
  let ny := hit * 0.75 + paddle.vy / PADDLE_MAX_SPEED * 0.25
  let nlen := m.sqrtf (nx * nx + ny * ny)
  let nlen := if nlen ≤ 0 then 1 else nlen
  let nx := nx / nlen
  let ny := ny / nlen
  { g with ball := { g.ball with vel := ⟨nx * speed, ny * speed⟩ } }

/-- The value of `speed` at line 368 of `reflect_ball_from_paddle`. -/
def reflect_speed (m : Libm α) (g : GameState α) : α :=
  let speed := m.sqrtf (g.ball.vel.x * g.ball.vel.x + g.ball.vel.y * g.ball.vel.y)
  let speed := speed * 1.05
  if speed > BALL_SPEED_MAX then BALL_SPEED_MAX else speed

/-- The value of `ny` at line 371 of `reflect_ball_from_paddle`. -/
def reflect_ny (paddle : Paddle α) (g : GameState α) : α :=
  let paddle_center := paddle.rect.y + paddle.rect.h * 0.5
  let ball_center := g.ball.rect.y + g.ball.rect.h * 0.5
  let hit := (ball_center - paddle_center) / (paddle.rect.h * 0.5)
  let hit := clampf hit (-1) 1
  hit * 0.75 + paddle.vy / PADDLE_MAX_SPEED * 0.25

/-- The value of `nlen` at line 373 of `reflect_ball_from_paddle`. -/
def reflect_nlen (m : Libm α) (paddle : Paddle α) (from_left : Bool) (g : GameState α) : α :=
  let nx : α := if from_left then 1 else -1
  let ny := reflect_ny paddle g
  let nlen := m.sqrtf (nx * nx + ny * ny)
  if nlen ≤ 0 then 1 else nlen

/-- Lines 382-383 of `update_ball`: integration of the ball position. -/
def ball_integrate (dt : α) (g : GameState α) : GameState α :=
  { g with ball := { g.ball with rect := { g.ball.rect with
      x := g.ball.rect.x + g.ball.vel.x * dt
      y := g.ball.rect.y + g.ball.vel.y * dt } } }

/-- Lines 385-388 of `update_ball`: the top edge. -/
def ball_wall_top (g : GameState α) : GameState α :=
  if g.ball.rect.y ≤ 0 then
    { g with ball := { rect := { g.ball.rect with y := 0 }
                       vel := { g.ball.vel with y := abs g.ball.vel.y } } }
  else g

/-- Lines 390-394 of `update_ball`: the bottom edge. -/
def ball_wall_bottom (g : GameState α) : GameState α :=
  let max_y := (LOGICAL_HEIGHT : α) - g.ball.rect.h
  if g.ball.rect.y ≥ max_y then
    { g with ball := { rect := { g.ball.rect with y := max_y }
                       vel := { g.ball.vel with y := -abs g.ball.vel.y } } }
  else g

/-- Lines 382-394 of `update_ball`: movement and the two wall checks. -/
def ball_move (dt : α) (g : GameState α) : GameState α :=
  ball_wall_bottom (ball_wall_top (ball_integrate dt g))

/-- The condition of line 396: the ball moves left and overlaps the player
paddle. -/
def hits_player (g : GameState α) : Bool :=
  decide (g.ball.vel.x < 0) && intersects g.ball.rect g.player.rect

/-- The condition of line 401: the ball moves right and overlaps the enemy
paddle. -/
def hits_enemy (g : GameState α) : Bool :=
  decide (g.ball.vel.x > 0) && intersects g.ball.rect g.enemy.rect

/-- Lines 396-399 of `update_ball`: collision with the player paddle. -/
def ball_hit_player (m : Libm α) (g : GameState α) : GameState α :=
  if hits_player g = true then
    let g := { g with ball := { g.ball with rect := { g.ball.rect with
      x := g.player.rect.x + g.player.rect.w } } }
    reflect_ball_from_paddle m g.player true g
  else g

/-- Lines 401-404 of `update_ball`: collision with the enemy paddle. -/
def ball_hit_enemy (m : Libm α) (g : GameState α) : GameState α :=
  if hits_enemy g = true then
    let g := { g with ball := { g.ball with rect := { g.ball.rect with
      x := g.enemy.rect.x - g.ball.rect.w } } }
    reflect_ball_from_paddle m g.enemy false g
  else g

/-- Lines 382-404 of `update_ball`: movement and collision resolution. -/
def ball_resolve (m : Libm α) (dt : α) (g : GameState α) : GameState α :=
  ball_hit_enemy m (ball_hit_player m (ball_move dt g))

/-- Lines 406-409 of `update_ball`: the ball left the field on the left. -/
def ball_score_left (m : Libm α) (w : World α) : World α :=
  if w.g_game.ball.rect.x + w.g_game.ball.rect.w < 0 then
    reset_positions m 1
      { w with g_game := { w.g_game with enemy_score := w.g_game.enemy_score + 1 } }
  else w

/-- Lines 411-414 of `update_ball`: the ball left the field on the right. -/
def ball_score_right (m : Libm α) (w : World α) : World α :=
  if w.g_game.ball.rect.x > (LOGICAL_WIDTH : α) then
    reset_positions m (-1)
      { w with g_game := { w.g_game with player_score := w.g_game.player_score + 1 } }
  else w

/-- Lines 381-415. -/
def update_ball (m : Libm α) (dt : α) (w : World α) : World α :=
  ball_score_right m (ball_score_left m { w with g_game := ball_resolve m dt w.g_game })

/-- Lines 423-428 of `update_game`: start from the menu. -/
def game_start (m : Libm α) (inp : InputState) (w : World α) : World α :=
  if inp.start_pressed = true ∧ w.g_game.mode = GameMode.GAME_MENU then
    let w := { w with g_game := { w.g_game with
      mode := GameMode.GAME_PLAYING, player_score := 0, enemy_score := 0 } }
    let r := rand w
    reset_positions m (if r.1 % 2 ≠ 0 then 1 else -1) r.2
  else w

/-- Lines 430-432 of `update_game`: the pause toggle. -/
def game_pause (inp : InputState) (w : World α) : World α :=
  if inp.pause_pressed = true ∧ w.g_game.mode ≠ GameMode.GAME_MENU then
    { w with g_game := { w.g_game with
      mode := if w.g_game.mode = GameMode.GAME_PLAYING then GameMode.GAME_PAUSED
              else GameMode.GAME_PLAYING } }
  else w

/-- Lines 434-439 of `update_game`: reset. -/
def game_reset (m : Libm α) (inp : InputState) (w : World α) : World α :=
  if inp.reset_pressed = true then
    let w := { w with g_game := { w.g_game with
      player_score := 0, enemy_score := 0, mode := GameMode.GAME_PLAYING } }
    let r := rand w
    reset_positions m (if r.1 % 2 ≠ 0 then 1 else -1) r.2
  else w

/-- Lines 443-445 of `update_game`: the axis the player asks for. -/
def player_axis (inp : InputState) : α :=
  let axis : α := 0
  let axis : α := if inp.up = true then axis - 1 else axis
  let axis : α := if inp.down = true then axis + 1 else axis
  axis

/-- Lines 443-448 of `update_game`: the two paddles move. -/
def game_paddles (inp : InputState) (dt : α) (g : GameState α) : GameState α :=
  update_enemy dt { g with player := apply_paddle_physics g.player (player_axis inp) dt }

/-- Lines 441-449 of `update_game`: the physics of one step, run only in
playing mode. -/
def game_physics (m : Libm α) (inp : InputState) (dt : α) (w : World α) : World α :=
  if w.g_game.mode ≠ GameMode.GAME_PLAYING then w
  else update_ball m dt { w with g_game := game_paddles inp dt w.g_game }

/-- Lines 417-450. -/
def update_game (m : Libm α) (inp : InputState) (dt : α) (w : World α) : World α :=
  if inp.quit_pressed = true then { w with running := false }
  else game_physics m inp dt (game_reset m inp (game_pause inp (game_start m inp w)))

/-- A playing state with the enemy paddle as served, the player paddle at
height `py` and the given ball. -/
def sample_state (py : α) (ball : Ball α) : GameState α :=
  { player := ⟨⟨30, py, 18, 115⟩, 0⟩
    enemy := ⟨⟨1232, 302.5, 18, 115⟩, 0⟩
    ball := ball
    player_score := 0
    enemy_score := 0
    mode := GameMode.GAME_PLAYING }

/-- The world around a game state: the window runs, and every coming call of
`rand()` returns `r`. -/
def sample_world (r : Nat) (g : GameState α) : World α :=
  ⟨g, true, fun _ => r⟩

/-! ## Invariant -/

/-- The ball moves horizontally towards the paddle: its horizontal velocity
has the sign of the offset from the ball to the paddle. -/
def moves_toward (b : Ball α) (p : Paddle α) : Prop :=
  0 < b.vel.x * (p.rect.x - b.rect.x)

end Logic

/-! ## Binary32 embedding (lines 30, 109-125, 297-450)

The same game logic with every `float` operation rounded to binary32, to
evaluate the program at concrete inputs where rounding matters.  A `float` is
the rational number it denotes.  Division by zero, overflow, infinities and
NaN are outside this embedding: it is evaluated only where none occurs. -/

/-- The test `2^(k - 256) ≤ n / d` on natural numbers. -/
def pow2_le (n d k : Nat) : Bool :=
  if 256 ≤ k then Nat.ble (d <<< (k - 256)) n else Nat.ble d (n <<< (256 - k))

/-- One step of the bisection of `exponent`. -/
def exponent_step (n d b k : Nat) : Nat :=
  if pow2_le n d (k + b) = true then k + b else k

/-- The binary exponent of the positive rational `n / d`, plus 256: the
greatest `k < 512` with `2^(k - 256) ≤ n / d`. -/
def exponent (n d : Nat) : Nat :=
  exponent_step n d 1 (exponent_step n d 2 (exponent_step n d 4 (exponent_step n d 8
    (exponent_step n d 16 (exponent_step n d 32 (exponent_step n d 64
      (exponent_step n d 128 (exponent_step n d 256 0))))))))

/-- Rounding to the nearest binary32 value, ties to even: 24 significant
bits, least exponent -126 (subnormal numbers included).  With `u - 256` the
exponent of the last place, `|q| / 2^(u - 256)` is the fraction `N / D`, which
is rounded to the integer `m`. -/
def f32 (q : ℚ) : ℚ :=
  let n := q.num.natAbs
  let d := q.den
  if n = 0 then 0
  else
    let u := max (exponent n d) 130 - 23
    let N := n <<< (256 - u)
    let D := d <<< (u - 256)
    let m := N / D
    let r := N % D
    let m := if D < 2 * r ∨ (2 * r = D ∧ m % 2 = 1) then m + 1 else m
    let v : ℚ := mkRat (m <<< (u - 256)) (1 <<< (256 - u))
    if q < 0 then -v else v

/-- The `float` quotient. -/
def fdiv (a b : ℚ) : ℚ := f32 (a / b)

/-- The integer square root of `n < 4^k`, one bit at a time from bit `k - 1`
down. -/
def isqrt_bits (n : Nat) : Nat → Nat → Nat
  | 0, r => r
  | k + 1, r =>
    let c := r + 2 ^ k
    if c * c ≤ n then isqrt_bits n k c else isqrt_bits n k r

/-- The correctly rounded `sqrtf` of IEEE 754.  The argument `n / d` is
scaled by a power of four to `N / D` of about 81 bits, so that the integer
square root `s` of the scaled argument has about 41 bits; the real square
root is `s` when the scaled argument is the square of `s` and lies strictly
between `s` and `s + 1` otherwise, where rounding to 24 bits cannot tell it
from `s + 1/2`. -/
def sqrtf_f32 (q : ℚ) : ℚ :=
  let n := q.num.natAbs
  let d := q.den
  if q ≤ 0 then 0
  else
    let h := exponent n d / 2
    let N := n <<< (2 * (168 - h))
    let D := d <<< (2 * (h - 168))
    let s := isqrt_bits (N / D) 48 0
    let r := if s * s * D = N then 2 * s else 2 * s + 1
    f32 (mkRat (r <<< (h - 169)) (1 <<< (169 - h)))

/-- Line 30: `1.0f / 60.0f`. -/
def FIXED_DT_f32 : ℚ := fdiv 1 60

/-- The fields of `RenderState` the drawing code uses. -/
structure RenderState where
  width : Int
  height : Int
  memory : Option (Int → Nat)

/-- Lines 115-118: the arguments are `uint8_t`, the arithmetic is `uint32_t`. -/
def rgb (r g b : Nat) : Nat :=
  ((b <<< 16) % 2 ^ 32) ||| ((g <<< 8) % 2 ^ 32) ||| r

/-- The store `pixels[i] = color`. -/
def write_pixel (rs : RenderState) (i : Int) (color : Nat) : Option RenderState :=
  match rs.memory with
  | none => none
  | some mem => some { rs with memory := some (fun j => if j = i then color else mem j) }

/-- The body of a counting loop run `n` times from `a` upwards. -/
def for_count (n : Nat) (a : Int) (body : Int → RenderState → Option RenderState)
    (rs : RenderState) : Option RenderState :=
  match n with
  | 0 => some rs
  | n + 1 =>
    match body a rs with
    | none => none
    | some rs1 => for_count n (a + 1) body rs1

/-- The loop `for (int i = a; i < b; ++i) body(i)`. -/
def for_range (a b : Int) (body : Int → RenderState → Option RenderState)
    (rs : RenderState) : Option RenderState :=
  for_count (b - a).toNat a body rs

/-- Lines 131-136. -/
def clear_screen (color : Nat) (rs : RenderState) : Option RenderState :=
  if rs.memory.isNone then some rs
  else
    let count := rs.width * rs.height
    for_range 0 count (fun i rs => write_pixel rs i color) rs

/-- Lines 536-548: `alloc` is what `VirtualAlloc` returns, `none` when the
allocation fails. -/
def resize_backbuffer (width height : Int) (alloc : Option (Int → Nat))
    (rs : RenderState) : RenderState :=
  if width ≤ 0 ∨ height ≤ 0 then rs
  else
    let rs := if rs.memory.isSome then { rs with memory := none } else rs
    let rs := { rs with width := width }
    let rs := { rs with height := height }
    { rs with memory := alloc }

/-! ### Font (lines 181-285) -/

def GLYPH_0 : List Nat := [0x0E, 0x11, 0x13, 0x15, 0x19, 0x11, 0x0E]
def GLYPH_1 : List Nat := [0x04, 0x0C, 0x04, 0x04, 0x04, 0x04, 0x0E]
def GLYPH_2 : List Nat := [0x0E, 0x11, 0x01, 0x02, 0x04, 0x08, 0x1F]
def GLYPH_3 : List Nat := [0x1E, 0x01, 0x01, 0x0E, 0x01, 0x01, 0x1E]
def GLYPH_4 : List Nat := [0x02, 0x06, 0x0A, 0x12, 0x1F, 0x02, 0x02]
def GLYPH_5 : List Nat := [0x1F, 0x10, 0x10, 0x1E, 0x01, 0x01, 0x1E]
def GLYPH_6 : List Nat := [0x06, 0x08, 0x10, 0x1E, 0x11, 0x11, 0x0E]
def GLYPH_7 : List Nat := [0x1F, 0x01, 0x02, 0x04, 0x08, 0x08, 0x08]
def GLYPH_8 : List Nat := [0x0E, 0x11, 0x11, 0x0E, 0x11, 0x11, 0x0E]
def GLYPH_9 : List Nat := [0x0E, 0x11, 0x11, 0x0F, 0x01, 0x02, 0x1C]

def GLYPH_A : List Nat := [0x0E, 0x11, 0x11, 0x1F, 0x11, 0x11, 0x11]
def GLYPH_C : List Nat := [0x0F, 0x10, 0x10, 0x10, 0x10, 0x10, 0x0F]
def GLYPH_D : List Nat := [0x1E, 0x11, 0x11, 0x11, 0x11, 0x11, 0x1E]
def GLYPH_E : List Nat := [0x1F, 0x10, 0x10, 0x1E, 0x10, 0x10, 0x1F]
def GLYPH_F : List Nat := [0x1F, 0x10, 0x10, 0x1E, 0x10, 0x10, 0x10]
def GLYPH_G : List Nat := [0x0F, 0x10, 0x10, 0x17, 0x11, 0x11, 0x0E]
def GLYPH_H : List Nat := [0x11, 0x11, 0x11, 0x1F, 0x11, 0x11, 0x11]
def GLYPH_I : List Nat := [0x1F, 0x04, 0x04, 0x04, 0x04, 0x04, 0x1F]
def GLYPH_L : List Nat := [0x10, 0x10, 0x10, 0x10, 0x10, 0x10, 0x1F]
def GLYPH_M : List Nat := [0x11, 0x1B, 0x15, 0x15, 0x11, 0x11, 0x11]
def GLYPH_N : List Nat := [0x11, 0x19, 0x19, 0x15, 0x13, 0x13, 0x11]
def GLYPH_O : List Nat := [0x0E, 0x11, 0x11, 0x11, 0x11, 0x11, 0x0E]
def GLYPH_P : List Nat := [0x1E, 0x11, 0x11, 0x1E, 0x10, 0x10, 0x10]
def GLYPH_Q : List Nat := [0x0E, 0x11, 0x11, 0x11, 0x15, 0x12, 0x0D]
def GLYPH_R : List Nat := [0x1E, 0x11, 0x11, 0x1E, 0x12, 0x11, 0x11]
def GLYPH_S : List Nat := [0x0F, 0x10, 0x10, 0x0E, 0x01, 0x01, 0x1E]
def GLYPH_T : List Nat := [0x1F, 0x04, 0x04, 0x04, 0x04, 0x04, 0x04]
def GLYPH_U : List Nat := [0x11, 0x11, 0x11, 0x11, 0x11, 0x11, 0x0E]
def GLYPH_V : List Nat := [0x11, 0x11, 0x11, 0x11, 0x11, 0x0A, 0x04]
def GLYPH_W : List Nat := [0x11, 0x11, 0x11, 0x15, 0x15, 0x15, 0x0A]
def GLYPH_Y : List Nat := [0x11, 0x11, 0x0A, 0x04, 0x04, 0x04, 0x04]

def GLYPH_COLON : List Nat := [0x00, 0x04, 0x04, 0x00, 0x04, 0x04, 0x00]
def GLYPH_DASH : List Nat := [0x00, 0x00, 0x00, 0x1F, 0x00, 0x00, 0x00]

/-- Lines 217-254: `none` is the null pointer of the default case. -/
def get_glyph (c : Char) : Option (List Nat) :=
  match c with
  | '0' => some GLYPH_0
  | '1' => some GLYPH_1
  | '2' => some GLYPH_2
  | '3' => some GLYPH_3
  | '4' => some GLYPH_4
  | '5' => some GLYPH_5
  | '6' => some GLYPH_6
  | '7' => some GLYPH_7
  | '8' => some GLYPH_8
  | '9' => some GLYPH_9
  | 'A' => some GLYPH_A
  | 'C' => some GLYPH_C
  | 'D' => some GLYPH_D
  | 'E' => some GLYPH_E
  | 'F' => some GLYPH_F
  | 'G' => some GLYPH_G
  | 'H' => some GLYPH_H
  | 'I' => some GLYPH_I
  | 'L' => some GLYPH_L
  | 'M' => some GLYPH_M
  | 'N' => some GLYPH_N
  | 'O' => some GLYPH_O
  | 'P' => some GLYPH_P
  | 'Q' => some GLYPH_Q
  | 'R' => some GLYPH_R
  | 'S' => some GLYPH_S
  | 'T' => some GLYPH_T
  | 'U' => some GLYPH_U
  | 'V' => some GLYPH_V
  | 'W' => some GLYPH_W
  | 'Y' => some GLYPH_Y
  | ':' => some GLYPH_COLON
  | '-' => some GLYPH_DASH
  | _ => none

/-- Lines 282-283 of `text_width`: the loop that counts the characters before
the terminating NUL, with `len` as the running count. -/
def text_len (text : List Char) (len : Int) : Int :=
  match text with
  | [] => len
  | _ :: rest => text_len rest (len + 1)

/-- Lines 281-285.  A C string is the list of its characters before the NUL. -/
def text_width (text : List Char) (scale : Int) : Int :=
  text_len text 0 * 6 * scale

section Render

variable {α : Type} [LinearOrderedField α] [FloorRing α]

/-- The conversion `(int)v` of a float: truncation towards zero. -/
def truncf (v : α) : Int :=
  if 0 ≤ v then ⌊v⌋ else ⌈v⌉

/-- Lines 138-155. -/
def draw_rect (r : RectF α) (color : Nat) (rs : RenderState) : Option RenderState :=
  if rs.memory.isNone then some rs
  else
    let x0 := truncf r.x
    let y0 := truncf r.y
    let x1 := truncf (r.x + r.w)
    let y1 := truncf (r.y + r.h)
    let x0 := if x0 < 0 then 0 else x0
    let y0 := if y0 < 0 then 0 else y0
    let x1 := if x1 > rs.width then rs.width else x1
    let y1 := if y1 > rs.height then rs.height else y1
    for_range y0 y1 (fun y rs =>
      for_range x0 x1 (fun x rs => write_pixel rs (y * rs.width + x) color) rs) rs

/-- Lines 157-178. -/
def draw_circle (cx cy radius : α) (color : Nat) (rs : RenderState) : Option RenderState :=
  let x0 := truncf (cx - radius)
  let y0 := truncf (cy - radius)
  let x1 := truncf (cx + radius)
  let y1 := truncf (cy + radius)
  let x0 := if x0 < 0 then 0 else x0
  let y0 := if y0 < 0 then 0 else y0
  let x1 := if x1 > rs.width then rs.width else x1
  let y1 := if y1 > rs.height then rs.height else y1
  let rr := radius * radius
  for_range y0 y1 (fun y rs =>
    for_range x0 x1 (fun x rs =>
      let dx := (x : α) - cx
      let dy := (y : α) - cy
      if dx * dx + dy * dy ≤ rr then write_pixel rs (y * rs.width + x) color
      else some rs) rs) rs

/-- Lines 256-270.  The float type of the rect handed to `draw_rect` is the
explicit argument `α`. -/
def draw_char (α : Type) [LinearOrderedField α] [FloorRing α]
    (c : Char) (x y scale : Int) (color : Nat) (rs : RenderState) : Option RenderState :=
  if c = ' ' then some rs
  else
    match get_glyph c with
    | none => some rs
    | some glyph =>
      for_range 0 7 (fun row rs =>
        let bits := glyph.getD row.toNat 0
        for_range 0 5 (fun col rs =>
          if bits &&& (1 <<< (4 - col).toNat) ≠ 0 then
            let px : RectF α :=
              ⟨((x + col * scale : Int) : α), ((y + row * scale : Int) : α),
               (scale : α), (scale : α)⟩
            draw_rect px color rs
          else some rs) rs) rs

/-- Lines 272-279: `cursor` starts at the `x` of the call. -/
def draw_text (α : Type) [LinearOrderedField α] [FloorRing α]
    (text : List Char) (cursor y scale : Int) (color : Nat) (rs : RenderState) :
    Option RenderState :=
  match text with
  | [] => some rs
  | c :: rest =>
    match draw_char α c cursor y scale color rs with
    | none => none
    | some rs1 => draw_text α rest (cursor + 6 * scale) y scale color rs1

end Render

/-! ### Scene text (lines 456-478, 504-515) -/

/-- The string `t1` of `render_menu` (line 461). -/
def render_menu_t1 : List Char := "PONG".toList

/-- The string `t2` of `render_menu` (line 466). -/
def render_menu_t2 : List Char := "PRESS SPACE TO START".toList

/-- The string `t3` of `render_menu` (line 471). -/
def render_menu_t3 : List Char := "W-S MOVE  SPACE PAUSE  R RESET".toList

/-- The string `t4` of `render_menu` (line 475). -/
def render_menu_t4 : List Char := "F11 FULLSCREEN  ESC QUIT".toList

/-- The string `p` of `render_paused_overlay` (line 508). -/
def render_paused_overlay_p : List Char := "PAUSED".toList

/-- The string `c` of `render_paused_overlay` (line 512). -/
def render_paused_overlay_c : List Char := "SPACE TO CONTINUE".toList

/-- The expression `(LOGICAL_WIDTH - text_width(t, s)) / 2` of lines 463, 468,
472, 476, 509 and 513; `/` on `int` truncates towards zero. -/
def centered_x (text : List Char) (scale : Int) : Int :=
  Int.tdiv (LOGICAL_WIDTH - text_width text scale) 2

section Scene

variable {α : Type} [LinearOrderedField α] [FloorRing α]

/-- Lines 456-478. -/
def render_menu (α : Type) [LinearOrderedField α] [FloorRing α]
    (rs : RenderState) : Option RenderState := do
  let title := rgb 0 230 170
  let text := rgb 220 230 235
  let dim := rgb 120 130 140
  let t1 := render_menu_t1
  let s1 : Int := 12
  let x1 := centered_x t1 s1
  let rs ← draw_text α t1 x1 120 s1 title rs
  let t2 := render_menu_t2
  let s2 : Int := 4
  let x2 := centered_x t2 s2
  let rs ← draw_text α t2 x2 300 s2 text rs
  let t3 := render_menu_t3
  let x3 := centered_x t3 3
  let rs ← draw_text α t3 x3 390 3 dim rs
  let t4 := render_menu_t4
  let x4 := centered_x t4 3
  draw_text α t4 x4 430 3 dim rs

/-- Lines 504-515. -/
def render_paused_overlay (α : Type) [LinearOrderedField α] [FloorRing α]
    (rs : RenderState) : Option RenderState := do
  let txt := rgb 250 250 250
  let dim := rgb 170 170 170
  let p := render_paused_overlay_p
  let px := centered_x p 7
  let rs ← draw_text α p px 280 7 txt rs
  let c := render_paused_overlay_c
  let cx := centered_x c 3
  draw_text α c cx 360 3 dim rs

end Scene

/-! ### Specification of the drawing routines -/

/-- Run on a `W x H` buffer, `f` succeeds, keeps the size, stores `c` at every
offset in `S` and changes no other offset. -/
def Paints (W H : Int) (c : Nat) (S : Int → Prop) (f : RenderState → Option RenderState) :
    Prop :=
  ∀ mem : Int → Nat, ∃ mem1 : Int → Nat, f ⟨W, H, some mem⟩ = some ⟨W, H, some mem1⟩ ∧
    (∀ j, S j → mem1 j = c) ∧ (∀ j, ¬ S j → mem1 j = mem j)

/-- Run on a `W x H` buffer, `f` succeeds, keeps the size and changes no
offset outside `B`. -/
def Keeps (W H : Int) (B : Int → Prop) (f : RenderState → Option RenderState) : Prop :=
  ∀ mem : Int → Nat, ∃ mem1 : Int → Nat, f ⟨W, H, some mem⟩ = some ⟨W, H, some mem1⟩ ∧
    ∀ j, ¬ B j → mem1 j = mem j

/-- The pixels of the box `[x, x + w) x [y, y + h)` that lie in a `W x H`
buffer, as offsets. -/
def pixel_box (x y w h W H : Int) (j : Int) : Prop :=
  ∃ c r : Int, x ≤ c ∧ c < x + w ∧ y ≤ r ∧ r < y + h ∧
    0 ≤ c ∧ c < W ∧ 0 ≤ r ∧ r < H ∧ j = r * W + c

/-- The characters the specification lists as having a glyph. -/
def spec_glyph_chars : List Char :=
  ['0', '1', '2', '3', '4', '5', '6', '7', '8', '9',
   'A', 'C', 'D', 'E', 'F', 'G', 'H', 'I', 'L', 'M', 'N', 'O', 'P', 'Q', 'R', 'S', 'T', 'U',
   'V', 'W', 'Y', ':', '-']

section RenderSpec

variable {α : Type} [LinearOrderedField α] [FloorRing α]

/-- The offsets `draw_rect` stores to: the pixels of the clipped box. -/
def rect_pixels (r : RectF α) (W H : Int) (j : Int) : Prop :=
  ∃ y : Int, max 0 (truncf r.y) ≤ y ∧ y < min H (truncf (r.y + r.h)) ∧
    ∃ x : Int, max 0 (truncf r.x) ≤ x ∧ x < min W (truncf (r.x + r.w)) ∧ j = y * W + x

/-- The offsets `draw_circle` stores to: the pixels of the clipped bounding
box that pass the distance test. -/
def circle_pixels (cx cy radius : α) (W H : Int) (j : Int) : Prop :=
  ∃ y : Int, max 0 (truncf (cy - radius)) ≤ y ∧ y < min H (truncf (cy + radius)) ∧
    ∃ x : Int, max 0 (truncf (cx - radius)) ≤ x ∧ x < min W (truncf (cx + radius)) ∧
      (((x : α) - cx) * ((x : α) - cx) + ((y : α) - cy) * ((y : α) - cy) ≤ radius * radius ∧
        j = y * W + x)

end RenderSpec

/-! ## Lemmas -/

section Lemmas

variable {α : Type} [LinearOrderedField α]

/-! ### Frame lemmas -/

theorem reset_positions_frame (m : Libm α) (d : Int) (w : World α) :
    (reset_positions m d w).g_game.player_score = w.g_game.player_score ∧
    (reset_positions m d w).g_game.enemy_score = w.g_game.enemy_score ∧
    (reset_positions m d w).g_game.mode = w.g_game.mode ∧
    (reset_positions m d w).running = w.running :=
  ⟨rfl, rfl, rfl, rfl⟩

theorem reset_positions_rects (m : Libm α) (d : Int) (w : World α) :
    (reset_positions m d w).g_game.player = ⟨⟨30, 302.5, 18, 115⟩, 0⟩ ∧
    (reset_positions m d w).g_game.enemy = ⟨⟨1232, 302.5, 18, 115⟩, 0⟩ ∧
    (reset_positions m d w).g_game.ball.rect = ⟨633, 353, 14, 14⟩ := by
  refine ⟨?_, ?_, ?_⟩ <;>
    simp only [reset_positions, LOGICAL_WIDTH, LOGICAL_HEIGHT, PADDLE_HEIGHT, PADDLE_WIDTH,
      BALL_SIZE] <;> norm_num

/-- The horizontal component of a serve has magnitude at least 0.20 of the
start speed, whatever `cosf` returns. -/
theorem reset_positions_vel_x (m : Libm α) (d : Int) (w : World α) :
    (0 ≤ d → 100 ≤ (reset_positions m d w).g_game.ball.vel.x) ∧
    (d < 0 → (reset_positions m d w).g_game.ball.vel.x ≤ -100) := by
  simp only [reset_positions, BALL_SPEED_START]
  generalize m.cosf _ = c
  have habs : (0.20 : α) ≤
      |if c < 0.20 ∧ c > -0.20 then (if c < 0 then -0.20 else 0.20) else c| := by
    split_ifs with h1 h2
    · rw [abs_neg, abs_of_pos (by norm_num)]
    · rw [abs_of_pos (by norm_num)]
    · rw [not_and_or, not_lt, not_lt] at h1
      rcases h1 with h1 | h1
      · exact le_trans h1 (le_abs_self c)
      · rw [le_abs]; right; linarith
  constructor
  · intro hd
    rw [if_pos hd]
    linarith
  · intro hd
    rw [if_neg (not_le.mpr hd)]
    linarith

theorem ball_integrate_frame (dt : α) (g : GameState α) :
    (ball_integrate dt g).player = g.player ∧ (ball_integrate dt g).enemy = g.enemy ∧
    (ball_integrate dt g).player_score = g.player_score ∧
    (ball_integrate dt g).enemy_score = g.enemy_score ∧
    (ball_integrate dt g).mode = g.mode ∧
    (ball_integrate dt g).ball.rect.w = g.ball.rect.w ∧
    (ball_integrate dt g).ball.rect.h = g.ball.rect.h ∧
    (ball_integrate dt g).ball.rect.x = g.ball.rect.x + g.ball.vel.x * dt ∧
    (ball_integrate dt g).ball.vel = g.ball.vel :=
  ⟨rfl, rfl, rfl, rfl, rfl, rfl, rfl, rfl, rfl⟩

theorem ball_wall_top_frame (g : GameState α) :
    (ball_wall_top g).player = g.player ∧ (ball_wall_top g).enemy = g.enemy ∧
    (ball_wall_top g).player_score = g.player_score ∧
    (ball_wall_top g).enemy_score = g.enemy_score ∧
    (ball_wall_top g).mode = g.mode ∧
    (ball_wall_top g).ball.rect.w = g.ball.rect.w ∧
    (ball_wall_top g).ball.rect.h = g.ball.rect.h ∧
    (ball_wall_top g).ball.rect.x = g.ball.rect.x ∧
    (ball_wall_top g).ball.vel.x = g.ball.vel.x ∧
    |(ball_wall_top g).ball.vel.y| = |g.ball.vel.y| := by
  unfold ball_wall_top
  split_ifs
  · exact ⟨rfl, rfl, rfl, rfl, rfl, rfl, rfl, rfl, rfl, abs_abs _⟩
  · exact ⟨rfl, rfl, rfl, rfl, rfl, rfl, rfl, rfl, rfl, rfl⟩

theorem ball_wall_bottom_frame (g : GameState α) :
    (ball_wall_bottom g).player = g.player ∧ (ball_wall_bottom g).enemy = g.enemy ∧
    (ball_wall_bottom g).player_score = g.player_score ∧
    (ball_wall_bottom g).enemy_score = g.enemy_score ∧
    (ball_wall_bottom g).mode = g.mode ∧
    (ball_wall_bottom g).ball.rect.w = g.ball.rect.w ∧
    (ball_wall_bottom g).ball.rect.h = g.ball.rect.h ∧
    (ball_wall_bottom g).ball.rect.x = g.ball.rect.x ∧
    (ball_wall_bottom g).ball.vel.x = g.ball.vel.x ∧
    |(ball_wall_bottom g).ball.vel.y| = |g.ball.vel.y| := by
  unfold ball_wall_bottom
  simp only []
  split_ifs
  · exact ⟨rfl, rfl, rfl, rfl, rfl, rfl, rfl, rfl, rfl, by simp⟩
  · exact ⟨rfl, rfl, rfl, rfl, rfl, rfl, rfl, rfl, rfl, rfl⟩

theorem ball_move_frame (dt : α) (g : GameState α) :
    (ball_move dt g).player = g.player ∧ (ball_move dt g).enemy = g.enemy ∧
    (ball_move dt g).player_score = g.player_score ∧
    (ball_move dt g).enemy_score = g.enemy_score ∧
    (ball_move dt g).mode = g.mode ∧
    (ball_move dt g).ball.rect.w = g.ball.rect.w ∧
    (ball_move dt g).ball.rect.h = g.ball.rect.h ∧
    (ball_move dt g).ball.rect.x = g.ball.rect.x + g.ball.vel.x * dt ∧
    (ball_move dt g).ball.vel.x = g.ball.vel.x ∧
    |(ball_move dt g).ball.vel.y| = |g.ball.vel.y| := by
  unfold ball_move
  obtain ⟨a1, a2, a3, a4, a5, a6, a7, a8, a9⟩ := ball_integrate_frame dt g
  obtain ⟨b1, b2, b3, b4, b5, b6, b7, b8, b9, b10⟩ := ball_wall_top_frame (ball_integrate dt g)
  obtain ⟨c1, c2, c3, c4, c5, c6, c7, c8, c9, c10⟩ :=
    ball_wall_bottom_frame (ball_wall_top (ball_integrate dt g))
  refine ⟨c1.trans (b1.trans a1), c2.trans (b2.trans a2), c3.trans (b3.trans a3),
    c4.trans (b4.trans a4), c5.trans (b5.trans a5), c6.trans (b6.trans a6),
    c7.trans (b7.trans a7), c8.trans (b8.trans a8), ?_, ?_⟩
  · rw [c9, b9, a9]
  · rw [c10, b10, a9]

/-- After the wall checks a ball shorter than the field that sits on the top
edge does not move up, and one that sits on the bottom edge does not move
down. -/
theorem ball_move_walls (dt : α) (g : GameState α)
    (hh : g.ball.rect.h < ((LOGICAL_HEIGHT : Int) : α)) :
    ((ball_move dt g).ball.rect.y = 0 → 0 ≤ (ball_move dt g).ball.vel.y) ∧
    ((ball_move dt g).ball.rect.y = ((LOGICAL_HEIGHT : Int) : α) - (ball_move dt g).ball.rect.h →
      (ball_move dt g).ball.vel.y ≤ 0) := by
  have hI : (ball_integrate dt g).ball.rect.h = g.ball.rect.h := rfl
  unfold ball_move
  generalize ball_integrate dt g = q at hI ⊢
  rw [← hI] at hh
  have hpos : (0 : α) < ((LOGICAL_HEIGHT : Int) : α) - q.ball.rect.h := sub_pos.mpr hh
  unfold ball_wall_bottom ball_wall_top
  by_cases c1 : q.ball.rect.y ≤ 0
  · rw [if_pos c1]
    simp only []
    rw [if_neg (not_le.mpr hpos)]
    refine ⟨fun _ => abs_nonneg _, fun h => ?_⟩
    exact absurd h (ne_of_lt hpos)
  · rw [if_neg c1]
    simp only []
    by_cases c2 : q.ball.rect.y ≥ ((LOGICAL_HEIGHT : Int) : α) - q.ball.rect.h
    · rw [if_pos c2]
      refine ⟨fun h => ?_, fun _ => ?_⟩
      · exact absurd h (ne_of_gt hpos)
      · simp
    · rw [if_neg c2]
      refine ⟨fun h => ?_, fun h => ?_⟩
      · exact absurd (le_of_eq h) c1
      · exact absurd (le_of_eq h.symm) c2

theorem reflect_eq (m : Libm α) (paddle : Paddle α) (from_left : Bool) (g : GameState α) :
    reflect_ball_from_paddle m paddle from_left g =
      { g with ball := { g.ball with vel :=
          ⟨(if from_left then 1 else -1) / reflect_nlen m paddle from_left g * reflect_speed m g,
           reflect_ny paddle g / reflect_nlen m paddle from_left g * reflect_speed m g⟩ } } :=
  rfl

theorem clampf_bounds (v lo hi : α) (h : lo ≤ hi) :
    lo ≤ clampf v lo hi ∧ clampf v lo hi ≤ hi := by
  unfold clampf
  split_ifs with h1 h2
  · exact ⟨le_refl _, h⟩
  · exact ⟨h, le_refl _⟩
  · exact ⟨not_lt.mp h1, not_lt.mp h2⟩

/-- The three ways the scoring checks of `update_ball` can go: a point for
the enemy, a point for the player, or no point. -/
theorem ball_scoring_cases (m : Libm α) (w : World α) :
    (w.g_game.ball.rect.x + w.g_game.ball.rect.w < 0 ∧
      ball_score_right m (ball_score_left m w) = reset_positions m 1
        { w with g_game := { w.g_game with enemy_score := w.g_game.enemy_score + 1 } }) ∨
    (¬ w.g_game.ball.rect.x + w.g_game.ball.rect.w < 0 ∧
      w.g_game.ball.rect.x > ((LOGICAL_WIDTH : Int) : α) ∧
      ball_score_right m (ball_score_left m w) = reset_positions m (-1)
        { w with g_game := { w.g_game with player_score := w.g_game.player_score + 1 } }) ∨
    (¬ w.g_game.ball.rect.x + w.g_game.ball.rect.w < 0 ∧
      ¬ w.g_game.ball.rect.x > ((LOGICAL_WIDTH : Int) : α) ∧
      ball_score_right m (ball_score_left m w) = w) := by
  by_cases c1 : w.g_game.ball.rect.x + w.g_game.ball.rect.w < 0
  · left
    refine ⟨c1, ?_⟩
    have hx := (reset_positions_rects m 1
      { w with g_game := { w.g_game with enemy_score := w.g_game.enemy_score + 1 } }).2.2
    unfold ball_score_left
    rw [if_pos c1]
    unfold ball_score_right
    rw [if_neg]
    rw [hx]
    norm_num [LOGICAL_WIDTH]
  · right
    unfold ball_score_left
    rw [if_neg c1]
    unfold ball_score_right
    by_cases c2 : w.g_game.ball.rect.x > ((LOGICAL_WIDTH : Int) : α)
    · left
      rw [if_pos c2]
      exact ⟨c1, c2, rfl⟩
    · right
      rw [if_neg c2]
      exact ⟨c1, c2, rfl⟩

theorem ball_resolve_no_hit (m : Libm α) (dt : α) (g : GameState α)
    (hp : hits_player (ball_move dt g) = false) (he : hits_enemy (ball_move dt g) = false) :
    ball_resolve m dt g = ball_move dt g := by
  unfold ball_resolve
  have h1 : ball_hit_player m (ball_move dt g) = ball_move dt g := by
    unfold ball_hit_player
    rw [if_neg (by simp [hp])]
  rw [h1]
  unfold ball_hit_enemy
  rw [if_neg (by simp [he])]

theorem update_ball_no_score (m : Libm α) (dt : α) (w : World α)
    (h1 : ¬ (ball_resolve m dt w.g_game).ball.rect.x + (ball_resolve m dt w.g_game).ball.rect.w < 0)
    (h2 : ¬ (ball_resolve m dt w.g_game).ball.rect.x > ((LOGICAL_WIDTH : Int) : α)) :
    update_ball m dt w = { w with g_game := ball_resolve m dt w.g_game } := by
  unfold update_ball
  rcases ball_scoring_cases m { w with g_game := ball_resolve m dt w.g_game } with
    ⟨h, _⟩ | ⟨_, h, _⟩ | ⟨_, _, h⟩
  · exact absurd h h1
  · exact absurd h h2
  · exact h

theorem ball_hit_player_frame (m : Libm α) (g : GameState α) :
    (ball_hit_player m g).player = g.player ∧ (ball_hit_player m g).enemy = g.enemy ∧
    (ball_hit_player m g).player_score = g.player_score ∧
    (ball_hit_player m g).enemy_score = g.enemy_score ∧
    (ball_hit_player m g).mode = g.mode ∧
    (ball_hit_player m g).ball.rect.w = g.ball.rect.w ∧
    (ball_hit_player m g).ball.rect.h = g.ball.rect.h ∧
    (ball_hit_player m g).ball.rect.y = g.ball.rect.y := by
  unfold ball_hit_player
  split_ifs <;> exact ⟨rfl, rfl, rfl, rfl, rfl, rfl, rfl, rfl⟩

theorem ball_hit_enemy_frame (m : Libm α) (g : GameState α) :
    (ball_hit_enemy m g).player = g.player ∧ (ball_hit_enemy m g).enemy = g.enemy ∧
    (ball_hit_enemy m g).player_score = g.player_score ∧
    (ball_hit_enemy m g).enemy_score = g.enemy_score ∧
    (ball_hit_enemy m g).mode = g.mode ∧
    (ball_hit_enemy m g).ball.rect.w = g.ball.rect.w ∧
    (ball_hit_enemy m g).ball.rect.h = g.ball.rect.h ∧
    (ball_hit_enemy m g).ball.rect.y = g.ball.rect.y := by
  unfold ball_hit_enemy
  split_ifs <;> exact ⟨rfl, rfl, rfl, rfl, rfl, rfl, rfl, rfl⟩

theorem ball_resolve_frame (m : Libm α) (dt : α) (g : GameState α) :
    (ball_resolve m dt g).player = g.player ∧ (ball_resolve m dt g).enemy = g.enemy ∧
    (ball_resolve m dt g).player_score = g.player_score ∧
    (ball_resolve m dt g).enemy_score = g.enemy_score ∧
    (ball_resolve m dt g).mode = g.mode ∧
    (ball_resolve m dt g).ball.rect.w = g.ball.rect.w ∧
    (ball_resolve m dt g).ball.rect.h = g.ball.rect.h ∧
    (ball_resolve m dt g).ball.rect.y = (ball_move dt g).ball.rect.y := by
  unfold ball_resolve
  obtain ⟨a1, a2, a3, a4, a5, a6, a7, _, _, _⟩ := ball_move_frame dt g
  obtain ⟨b1, b2, b3, b4, b5, b6, b7, b8⟩ := ball_hit_player_frame m (ball_move dt g)
  obtain ⟨c1, c2, c3, c4, c5, c6, c7, c8⟩ :=
    ball_hit_enemy_frame m (ball_hit_player m (ball_move dt g))
  exact ⟨c1.trans (b1.trans a1), c2.trans (b2.trans a2), c3.trans (b3.trans a3),
    c4.trans (b4.trans a4), c5.trans (b5.trans a5), c6.trans (b6.trans a6),
    c7.trans (b7.trans a7), c8.trans b8⟩

theorem update_ball_frame (m : Libm α) (dt : α) (w : World α) :
    (update_ball m dt w).g_game.mode = w.g_game.mode ∧
    (update_ball m dt w).running = w.running := by
  obtain ⟨_, _, _, _, hm, _⟩ := ball_resolve_frame m dt w.g_game
  unfold update_ball
  rcases ball_scoring_cases m { w with g_game := ball_resolve m dt w.g_game } with
    ⟨_, h⟩ | ⟨_, _, h⟩ | ⟨_, _, h⟩ <;> rw [h] <;> exact ⟨hm, rfl⟩

theorem game_physics_frame (m : Libm α) (inp : InputState) (dt : α) (w : World α) :
    (game_physics m inp dt w).g_game.mode = w.g_game.mode ∧
    (game_physics m inp dt w).running = w.running := by
  unfold game_physics
  by_cases h : w.g_game.mode ≠ GameMode.GAME_PLAYING
  · rw [if_pos h]
    exact ⟨rfl, rfl⟩
  · rw [if_neg h]
    exact ⟨(update_ball_frame m dt _).1.trans rfl, (update_ball_frame m dt _).2.trans rfl⟩

theorem game_physics_idle (m : Libm α) (inp : InputState) (dt : α) (w : World α)
    (h : w.g_game.mode ≠ GameMode.GAME_PLAYING) : game_physics m inp dt w = w := by
  unfold game_physics
  rw [if_pos h]

theorem apply_paddle_physics_frame (paddle : Paddle α) (axis dt : α) :
    (apply_paddle_physics paddle axis dt).rect.x = paddle.rect.x ∧
    (apply_paddle_physics paddle axis dt).rect.w = paddle.rect.w ∧
    (apply_paddle_physics paddle axis dt).rect.h = paddle.rect.h := by
  unfold apply_paddle_physics paddle_clamp_high paddle_clamp_low
  simp only []
  split_ifs <;> exact ⟨rfl, rfl, rfl⟩

theorem update_enemy_frame (dt : α) (g : GameState α) :
    (update_enemy dt g).player = g.player ∧ (update_enemy dt g).ball = g.ball ∧
    (update_enemy dt g).player_score = g.player_score ∧
    (update_enemy dt g).enemy_score = g.enemy_score ∧
    (update_enemy dt g).mode = g.mode ∧
    (update_enemy dt g).enemy.rect.x = g.enemy.rect.x ∧
    (update_enemy dt g).enemy.rect.w = g.enemy.rect.w ∧
    (update_enemy dt g).enemy.rect.h = g.enemy.rect.h := by
  unfold update_enemy
  exact ⟨rfl, rfl, rfl, rfl, rfl, (apply_paddle_physics_frame _ _ _).1,
    (apply_paddle_physics_frame _ _ _).2.1, (apply_paddle_physics_frame _ _ _).2.2⟩

/-- A ball that after the move is between the paddles and inside the field
touches no paddle and scores no point: `update_ball` is the move alone. -/
theorem update_ball_mid (m : Libm α) (dt : α) (w : World α)
    (h1 : w.g_game.player.rect.x + w.g_game.player.rect.w ≤
      w.g_game.ball.rect.x + w.g_game.ball.vel.x * dt)
    (h2 : w.g_game.ball.rect.x + w.g_game.ball.vel.x * dt + w.g_game.ball.rect.w ≤
      w.g_game.enemy.rect.x)
    (h3 : 0 ≤ w.g_game.ball.rect.x + w.g_game.ball.vel.x * dt + w.g_game.ball.rect.w)
    (h4 : w.g_game.ball.rect.x + w.g_game.ball.vel.x * dt ≤ ((LOGICAL_WIDTH : Int) : α)) :
    update_ball m dt w = { w with g_game := ball_move dt w.g_game } := by
  obtain ⟨a1, a2, _, _, _, a6, _, a8, _, _⟩ := ball_move_frame dt w.g_game
  have hp : hits_player (ball_move dt w.g_game) = false := by
    unfold hits_player intersects
    rw [a1, a8]
    simp [not_lt.mpr h1]
  have he : hits_enemy (ball_move dt w.g_game) = false := by
    unfold hits_enemy intersects
    rw [a2, a8, a6]
    simp [not_lt.mpr h2]
  have hr := ball_resolve_no_hit m dt w.g_game hp he
  have := update_ball_no_score m dt w (by rw [hr, a8, a6]; exact not_lt.mpr h3)
    (by rw [hr, a8]; exact not_lt.mpr h4)
  rw [this, hr]

/-- What `game_reset` does when the reset flag is set. -/
theorem game_reset_fire (m : Libm α) (inp : InputState) (w : World α)
    (h : inp.reset_pressed = true) :
    game_reset m inp w =
      reset_positions m (if w.rand_seq 0 % 2 ≠ 0 then 1 else -1)
        (rand { w with g_game := { w.g_game with
          player_score := 0, enemy_score := 0, mode := GameMode.GAME_PLAYING } }).2 := by
  unfold game_reset
  rw [if_pos h]
  rfl

theorem game_paddles_frame (inp : InputState) (dt : α) (g : GameState α) :
    (game_paddles inp dt g).ball = g.ball ∧
    (game_paddles inp dt g).player_score = g.player_score ∧
    (game_paddles inp dt g).enemy_score = g.enemy_score ∧
    (game_paddles inp dt g).mode = g.mode ∧
    (game_paddles inp dt g).player.rect.x = g.player.rect.x ∧
    (game_paddles inp dt g).player.rect.w = g.player.rect.w ∧
    (game_paddles inp dt g).player.rect.h = g.player.rect.h ∧
    (game_paddles inp dt g).enemy.rect.x = g.enemy.rect.x ∧
    (game_paddles inp dt g).enemy.rect.w = g.enemy.rect.w ∧
    (game_paddles inp dt g).enemy.rect.h = g.enemy.rect.h := by
  unfold game_paddles
  obtain ⟨e1, e2, e3, e4, e5, e6, e7, e8⟩ := update_enemy_frame dt
    { g with player := apply_paddle_physics g.player (player_axis inp) dt }
  obtain ⟨p1, p2, p3⟩ := apply_paddle_physics_frame g.player (player_axis inp : α) dt
  refine ⟨e2, e3, e4, e5, ?_, ?_, ?_, e6, e7, e8⟩
  · rw [e1]; exact p1
  · rw [e1]; exact p2
  · rw [e1]; exact p3

/-- In playing mode, a step in which the moved ball stays between the paddles
and inside the field leaves both scores as they were. -/
theorem game_physics_mid (m : Libm α) (inp : InputState) (dt : α) (u : World α)
    (hmode : u.g_game.mode = GameMode.GAME_PLAYING)
    (h1 : u.g_game.player.rect.x + u.g_game.player.rect.w ≤
      u.g_game.ball.rect.x + u.g_game.ball.vel.x * dt)
    (h2 : u.g_game.ball.rect.x + u.g_game.ball.vel.x * dt + u.g_game.ball.rect.w ≤
      u.g_game.enemy.rect.x)
    (h3 : 0 ≤ u.g_game.ball.rect.x + u.g_game.ball.vel.x * dt + u.g_game.ball.rect.w)
    (h4 : u.g_game.ball.rect.x + u.g_game.ball.vel.x * dt ≤ ((LOGICAL_WIDTH : Int) : α)) :
    (game_physics m inp dt u).g_game.player_score = u.g_game.player_score ∧
    (game_physics m inp dt u).g_game.enemy_score = u.g_game.enemy_score := by
  unfold game_physics
  rw [if_neg (by simp [hmode])]
  obtain ⟨e1, e2, e3, _, e5, e6, _, e8, _, _⟩ := game_paddles_frame inp dt u.g_game
  have hmid := update_ball_mid m dt { u with g_game := game_paddles inp dt u.g_game }
    (by simp only [e1, e5, e6]; exact h1)
    (by simp only [e1, e8]; exact h2)
    (by simp only [e1]; exact h3)
    (by simp only [e1]; exact h4)
  rw [hmid]
  obtain ⟨_, _, b3, b4, _⟩ := ball_move_frame dt (game_paddles inp dt u.g_game)
  exact ⟨b3.trans e2, b4.trans e3⟩

/-- A served ball moves towards the enemy paddle for a non-negative serve
direction and towards the player paddle for a negative one. -/
theorem reset_positions_toward (m : Libm α) (d : Int) (w : World α) :
    (0 ≤ d →
      moves_toward (reset_positions m d w).g_game.ball (reset_positions m d w).g_game.enemy ∧
      ¬ moves_toward (reset_positions m d w).g_game.ball (reset_positions m d w).g_game.player) ∧
    (d < 0 →
      moves_toward (reset_positions m d w).g_game.ball (reset_positions m d w).g_game.player ∧
      ¬ moves_toward (reset_positions m d w).g_game.ball (reset_positions m d w).g_game.enemy) := by
  obtain ⟨r1, r2, r3⟩ := reset_positions_rects m d w
  obtain ⟨hp, hn⟩ := reset_positions_vel_x m d w
  unfold moves_toward
  rw [r1, r2, r3]
  constructor
  · intro h
    have := hp h
    constructor
    · nlinarith
    · intro hc
      nlinarith
  · intro h
    have := hn h
    constructor
    · nlinarith
    · intro hc
      nlinarith

/-- The vertical component of the bounce direction is at most 1 in
magnitude when the paddle is not faster than its speed cap. -/
theorem reflect_ny_abs (paddle : Paddle α) (g : GameState α)
    (hvy : |paddle.vy| ≤ PADDLE_MAX_SPEED) : |reflect_ny paddle g| ≤ 1 := by
  unfold reflect_ny
  simp only [PADDLE_MAX_SPEED] at hvy ⊢
  obtain ⟨c1, c2⟩ := clampf_bounds
    ((g.ball.rect.y + g.ball.rect.h * 0.5 - (paddle.rect.y + paddle.rect.h * 0.5)) /
      (paddle.rect.h * 0.5)) (-1 : α) 1 (by norm_num)
  obtain ⟨v1, v2⟩ := abs_le.mp hvy
  rw [abs_le]
  constructor
  · have : -1 ≤ paddle.vy / 760 := by rw [le_div_iff₀ (by norm_num)]; linarith
    norm_num at *
    linarith
  · have : paddle.vy / 760 ≤ 1 := by rw [div_le_iff₀ (by norm_num)]; linarith
    norm_num at *
    linarith

end Lemmas

/-! ### Exact square root -/

theorem real_nlen (paddle : Paddle ℝ) (from_left : Bool) (g : GameState ℝ) :
    0 < reflect_nlen (Libm.mk Real.sqrt Real.cos Real.sin) paddle from_left g ∧
    reflect_nlen (Libm.mk Real.sqrt Real.cos Real.sin) paddle from_left g ^ 2 =
      1 + reflect_ny paddle g ^ 2 := by
  have hx : ((if from_left = true then (1 : ℝ) else -1) * (if from_left = true then (1 : ℝ) else -1)) = 1 := by
    cases from_left <;> simp
  have hpos : (0 : ℝ) < 1 + reflect_ny paddle g ^ 2 := by positivity
  have hs : 0 < Real.sqrt (1 + reflect_ny paddle g ^ 2) := Real.sqrt_pos.mpr hpos
  unfold reflect_nlen
  simp only []
  rw [hx, ← pow_two, if_neg (not_le.mpr hs)]
  exact ⟨hs, Real.sq_sqrt hpos.le⟩

theorem real_speed (g : GameState ℝ) :
    reflect_speed (Libm.mk Real.sqrt Real.cos Real.sin) g =
      min (1.05 * Real.sqrt (g.ball.vel.x ^ 2 + g.ball.vel.y ^ 2)) 1100 := by
  unfold reflect_speed
  simp only [BALL_SPEED_MAX, ← pow_two]
  rw [mul_comm]
  split_ifs with h
  · rw [min_eq_right h.le]
  · rw [min_eq_left (not_lt.mp h)]

/-- The serve angle of `reset_positions` for the draw `r`. -/
theorem serve_angle_cos (r : Nat) :
    (0.20 : ℝ) ≤ Real.cos ((((r % 120 : Nat) : ℝ) - 60) * 0.0174532925) := by
  have hlt : r % 120 < 120 := Nat.mod_lt r (by norm_num)
  have h0 : (0 : ℝ) ≤ ((r % 120 : Nat) : ℝ) := Nat.cast_nonneg _
  have h1 : ((r % 120 : Nat) : ℝ) ≤ 119 := by exact_mod_cast Nat.le_of_lt_succ hlt
  have hb := @Real.one_sub_sq_div_two_le_cos ((((r % 120 : Nat) : ℝ) - 60) * 0.0174532925)
  generalize ((r % 120 : Nat) : ℝ) = k at h0 h1 hb
  have hsq : ((k - 60) * 0.0174532925) ^ 2 ≤ 1.2 := by
    have : (k - 60) ^ 2 ≤ 3600 := by nlinarith
    have h2 : ((k - 60) * 0.0174532925) ^ 2 = (k - 60) ^ 2 * (0.0174532925 ^ 2) := by ring
    rw [h2]
    norm_num
    nlinarith
  linarith

/-- With exact `cosf` and `sinf` the shallow-angle clamp of `reset_positions`
never fires: the served velocity is the unit vector of the angle scaled by
BALL_SPEED_START. -/
theorem real_serve (d : Int) (w : World ℝ) :
    (reset_positions (Libm.mk Real.sqrt Real.cos Real.sin) d w).g_game.ball.vel.x =
      Real.cos ((((w.rand_seq 0 % 120 : Nat) : ℝ) - 60) * 0.0174532925) * 500 *
        (if d ≥ 0 then 1 else -1) ∧
    (reset_positions (Libm.mk Real.sqrt Real.cos Real.sin) d w).g_game.ball.vel.y =
      Real.sin ((((w.rand_seq 0 % 120 : Nat) : ℝ) - 60) * 0.0174532925) * 500 := by
  have hc := serve_angle_cos (w.rand_seq 0)
  simp only [reset_positions, rand, BALL_SPEED_START]
  refine ⟨?_, trivial⟩
  rw [if_neg (by rw [not_and_or, not_lt]; left; exact hc), abs_of_pos (by linarith)]

theorem real_serve_sq (d : Int) (w : World ℝ) :
    (reset_positions (Libm.mk Real.sqrt Real.cos Real.sin) d w).g_game.ball.vel.x ^ 2 +
    (reset_positions (Libm.mk Real.sqrt Real.cos Real.sin) d w).g_game.ball.vel.y ^ 2 =
      500 ^ 2 := by
  obtain ⟨hx, hy⟩ := real_serve d w
  rw [hx, hy]
  have hd : ((if d ≥ 0 then (1 : ℝ) else -1)) ^ 2 = 1 := by split_ifs <;> norm_num
  have := Real.cos_sq_add_sin_sq ((((w.rand_seq 0 % 120 : Nat) : ℝ) - 60) * 0.0174532925)
  generalize Real.cos _ = c at this ⊢
  generalize Real.sin _ = s at this ⊢
  calc (c * 500 * (if d ≥ 0 then (1 : ℝ) else -1)) ^ 2 + (s * 500) ^ 2
      = 500 ^ 2 * (c ^ 2 * (if d ≥ 0 then (1 : ℝ) else -1) ^ 2 + s ^ 2) := by ring
    _ = 500 ^ 2 := by rw [hd, mul_one, this, mul_one]

theorem real_serve_abs (d : Int) (w : World ℝ) :
    |(reset_positions (Libm.mk Real.sqrt Real.cos Real.sin) d w).g_game.ball.vel.x| ≤ 500 ∧
    |(reset_positions (Libm.mk Real.sqrt Real.cos Real.sin) d w).g_game.ball.vel.y| ≤ 500 := by
  have h := real_serve_sq d w
  constructor
  · apply abs_le_of_sq_le_sq _ (by norm_num)
    nlinarith [sq_nonneg (reset_positions (Libm.mk Real.sqrt Real.cos Real.sin) d w).g_game.ball.vel.y]
  · apply abs_le_of_sq_le_sq _ (by norm_num)
    nlinarith [sq_nonneg (reset_positions (Libm.mk Real.sqrt Real.cos Real.sin) d w).g_game.ball.vel.x]

/-- With exact `sqrtf`, a reflection of a ball that moves horizontally sends
it to the right from the left paddle and to the left from the right paddle. -/
theorem real_reflect_vel_x (paddle : Paddle ℝ) (from_left : Bool) (g : GameState ℝ)
    (hv : g.ball.vel.x ≠ 0) :
    (from_left = true →
      0 < (reflect_ball_from_paddle (Libm.mk Real.sqrt Real.cos Real.sin) paddle from_left
        g).ball.vel.x) ∧
    (from_left = false →
      (reflect_ball_from_paddle (Libm.mk Real.sqrt Real.cos Real.sin) paddle from_left
        g).ball.vel.x < 0) := by
  obtain ⟨hn, _⟩ := real_nlen paddle from_left g
  have hs : 0 < reflect_speed (Libm.mk Real.sqrt Real.cos Real.sin) g := by
    rw [real_speed]
    have hpos : 0 < g.ball.vel.x ^ 2 + g.ball.vel.y ^ 2 := by positivity
    have := Real.sqrt_pos.mpr hpos
    exact lt_min (by linarith) (by norm_num)
  rw [reflect_eq]
  constructor
  · intro h
    subst h
    exact mul_pos (div_pos one_pos hn) hs
  · intro h
    subst h
    exact mul_neg_of_neg_of_pos (div_neg_of_neg_of_pos (by norm_num) hn) hs

/-! ### Renderer lemmas -/

theorem paints_congr {W H : Int} {c : Nat} {S T : Int → Prop}
    {f : RenderState → Option RenderState} (h : ∀ j, S j ↔ T j) (hf : Paints W H c S f) :
    Paints W H c T f := by
  intro mem
  obtain ⟨mem1, e, h1, h2⟩ := hf mem
  exact ⟨mem1, e, fun j hj => h1 j ((h j).mpr hj), fun j hj => h2 j (fun hs => hj ((h j).mp hs))⟩

theorem paints_skip (W H : Int) (c : Nat) : Paints W H c (fun _ => False) (fun rs => some rs) :=
  fun mem => ⟨mem, rfl, fun _ hj => absurd hj id, fun _ _ => rfl⟩

theorem paints_write (W H : Int) (c : Nat) (i : Int) :
    Paints W H c (fun j => j = i) (fun rs => write_pixel rs i c) := by
  intro mem
  refine ⟨fun j => if j = i then c else mem j, rfl, ?_, ?_⟩
  · intro j hj
    simp only [hj, if_true]
  · intro j hj
    simp only [hj, if_false]

theorem paints_for_count {W H : Int} {c : Nat} {S : Int → Int → Prop}
    {body : Int → RenderState → Option RenderState} (n : Nat) :
    ∀ a : Int, (∀ k, a ≤ k → k < a + n → Paints W H c (S k) (body k)) →
      Paints W H c (fun j => ∃ k, a ≤ k ∧ k < a + n ∧ S k j) (for_count n a body) := by
  induction n with
  | zero =>
    intro a _ mem
    refine ⟨mem, rfl, ?_, fun _ _ => rfl⟩
    rintro j ⟨k, h1, h2, _⟩
    simp only [Nat.cast_zero, add_zero] at h2
    exact absurd h1 (not_le.mpr h2)
  | succ n ih =>
    intro a hb mem
    obtain ⟨mem1, e1, s1, k1⟩ := hb a (le_refl a) (by push_cast; linarith) mem
    have hrest := ih (a + 1) (fun k h1 h2 => hb k (by linarith) (by push_cast; linarith))
    obtain ⟨mem2, e2, s2, k2⟩ := hrest mem1
    refine ⟨mem2, ?_, ?_, ?_⟩
    · show (match body a ⟨W, H, some mem⟩ with
        | none => none
        | some rs1 => for_count n (a + 1) body rs1) = _
      rw [e1]
      exact e2
    · rintro j ⟨k, h1, h2, hs⟩
      by_cases hl : ∃ k, a + 1 ≤ k ∧ k < a + 1 + n ∧ S k j
      · exact s2 j hl
      · rw [k2 j hl]
        have hk : k = a := by
          by_contra hne
          have hlt : a < k := lt_of_le_of_ne h1 (Ne.symm hne)
          exact hl ⟨k, by linarith, by push_cast at h2; linarith, hs⟩
        exact s1 j (hk ▸ hs)
    · intro j hj
      have h2 : ¬ ∃ k, a + 1 ≤ k ∧ k < a + 1 + n ∧ S k j := by
        rintro ⟨k, h1, h2, hs⟩
        exact hj ⟨k, by linarith, by push_cast; linarith, hs⟩
      have h1 : ¬ S a j := fun hs => hj ⟨a, le_refl a, by push_cast; linarith, hs⟩
      rw [k2 j h2, k1 j h1]

theorem paints_for_range {W H : Int} {c : Nat} {S : Int → Int → Prop}
    {body : Int → RenderState → Option RenderState} (a b : Int)
    (hb : ∀ k, a ≤ k → k < b → Paints W H c (S k) (body k)) :
    Paints W H c (fun j => ∃ k, a ≤ k ∧ k < b ∧ S k j) (for_range a b body) := by
  have hn : ∀ k : Int, a ≤ k → (k < a + ((b - a).toNat : Int) ↔ k < b) := by
    intro k hk
    rcases le_or_lt a b with h | h
    · rw [Int.toNat_of_nonneg (by linarith)]
      constructor <;> intro <;> linarith
    · rw [Int.toNat_eq_zero.mpr (by linarith)]
      constructor <;> intro <;> simp only [Nat.cast_zero, add_zero] at * <;> linarith
  have := @paints_for_count W H c S body (b - a).toNat a
    (fun k h1 h2 => hb k h1 ((hn k h1).mp h2))
  refine paints_congr ?_ this
  intro j
  constructor
  · rintro ⟨k, h1, h2, hs⟩
    exact ⟨k, h1, (hn k h1).mp h2, hs⟩
  · rintro ⟨k, h1, h2, hs⟩
    exact ⟨k, h1, (hn k h1).mpr h2, hs⟩


theorem keeps_of_paints {W H : Int} {c : Nat} {S B : Int → Prop}
    {f : RenderState → Option RenderState} (hf : Paints W H c S f) (h : ∀ j, S j → B j) :
    Keeps W H B f := by
  intro mem
  obtain ⟨mem1, e, _, h2⟩ := hf mem
  exact ⟨mem1, e, fun j hj => h2 j (fun hs => hj (h j hs))⟩

theorem keeps_skip (W H : Int) (B : Int → Prop) : Keeps W H B (fun rs => some rs) :=
  fun mem => ⟨mem, rfl, fun _ _ => rfl⟩

theorem keeps_for_count {W H : Int} {B : Int → Prop}
    {body : Int → RenderState → Option RenderState} (n : Nat) :
    ∀ a : Int, (∀ k, a ≤ k → k < a + n → Keeps W H B (body k)) →
      Keeps W H B (for_count n a body) := by
  induction n with
  | zero => exact fun a _ mem => ⟨mem, rfl, fun _ _ => rfl⟩
  | succ n ih =>
    intro a hb mem
    obtain ⟨mem1, e1, k1⟩ := hb a (le_refl a) (by push_cast; linarith) mem
    obtain ⟨mem2, e2, k2⟩ :=
      ih (a + 1) (fun k h1 h2 => hb k (by linarith) (by push_cast; linarith)) mem1
    refine ⟨mem2, ?_, fun j hj => by rw [k2 j hj, k1 j hj]⟩
    show (match body a ⟨W, H, some mem⟩ with
      | none => none
      | some rs1 => for_count n (a + 1) body rs1) = _
    rw [e1]
    exact e2

theorem keeps_for_range {W H : Int} {B : Int → Prop}
    {body : Int → RenderState → Option RenderState} (a b : Int)
    (hb : ∀ k, a ≤ k → k < b → Keeps W H B (body k)) :
    Keeps W H B (for_range a b body) := by
  apply keeps_for_count
  intro k h1 h2
  apply hb k h1
  rcases le_or_lt a b with h | h
  · rw [Int.toNat_of_nonneg (by linarith)] at h2
    linarith
  · rw [Int.toNat_eq_zero.mpr (by linarith)] at h2
    simp only [Nat.cast_zero, add_zero] at h2
    linarith

/-- The clamp `if (v < 0) v = 0`. -/
theorem clamp_low_eq (v : Int) : (if v < 0 then 0 else v) = max 0 v := by
  split_ifs with h
  · exact (max_eq_left h.le).symm
  · exact (max_eq_right (not_lt.mp h)).symm

/-- The clamp `if (v > hi) v = hi`. -/
theorem clamp_high_eq (v hi : Int) : (if v > hi then hi else v) = min hi v := by
  split_ifs with h
  · exact (min_eq_left (le_of_lt h)).symm
  · exact (min_eq_right (not_lt.mp h)).symm

/-- A pixel of a `W x H` buffer has its offset inside the buffer. -/
theorem pixel_index_bounds {W H x y : Int} (hx0 : 0 ≤ x) (hx1 : x < W) (hy0 : 0 ≤ y)
    (hy1 : y < H) : 0 ≤ y * W + x ∧ y * W + x < W * H := by
  have hW : 0 < W := lt_of_le_of_lt hx0 hx1
  constructor
  · have := mul_nonneg hy0 hW.le
    linarith
  · have h1 : y + 1 ≤ H := hy1
    have h2 : (y + 1) * W ≤ H * W := mul_le_mul_of_nonneg_right h1 hW.le
    have h3 : (y + 1) * W = y * W + W := by ring
    have h4 : H * W = W * H := mul_comm H W
    linarith

/-- Two pixels of a row-major buffer with the same offset are the same
pixel. -/
theorem pixel_index_inj {W x y x1 y1 : Int} (hx0 : 0 ≤ x) (hxW : x < W) (hx10 : 0 ≤ x1)
    (hx1W : x1 < W) (h : y * W + x = y1 * W + x1) : x = x1 ∧ y = y1 := by
  have hy : y = y1 := by
    rcases lt_trichotomy y y1 with hlt | heq | hgt
    · exfalso
      have h1 : y + 1 ≤ y1 := hlt
      have h2 : (y + 1) * W ≤ y1 * W := mul_le_mul_of_nonneg_right h1 (by linarith)
      have h3 : (y + 1) * W = y * W + W := by ring
      linarith
    · exact heq
    · exfalso
      have h1 : y1 + 1 ≤ y := hgt
      have h2 : (y1 + 1) * W ≤ y * W := mul_le_mul_of_nonneg_right h1 (by linarith)
      have h3 : (y1 + 1) * W = y1 * W + W := by ring
      linarith
  subst hy
  exact ⟨by linarith, rfl⟩

/-- On a null pixel store a loop whose body at some step stores through the
pointer, and at every step either does that or leaves the state alone,
stores through the null pointer. -/
theorem for_count_null {W H : Int} {body : Int → RenderState → Option RenderState} (n : Nat) :
    ∀ a : Int,
      (∀ k, a ≤ k → k < a + n →
        body k ⟨W, H, none⟩ = none ∨ body k ⟨W, H, none⟩ = some ⟨W, H, none⟩) →
      (∃ k, a ≤ k ∧ k < a + n ∧ body k ⟨W, H, none⟩ = none) →
      for_count n a body ⟨W, H, none⟩ = none := by
  induction n with
  | zero =>
    rintro a _ ⟨k, h1, h2, _⟩
    simp only [Nat.cast_zero, add_zero] at h2
    exact absurd h1 (not_le.mpr h2)
  | succ n ih =>
    rintro a hb ⟨k, h1, h2, hk⟩
    show (match body a ⟨W, H, none⟩ with
      | none => none
      | some rs1 => for_count n (a + 1) body rs1) = none
    rcases hb a (le_refl a) (by push_cast; linarith) with e | e
    · rw [e]
    · rw [e]
      apply ih (a + 1) (fun j j1 j2 => hb j (by linarith) (by push_cast; linarith))
      have hne : k ≠ a := by
        intro hka
        rw [hka, e] at hk
        exact Option.noConfusion hk
      have hlt : a < k := lt_of_le_of_ne h1 (Ne.symm hne)
      exact ⟨k, hlt, by push_cast at h2; linarith, hk⟩

theorem for_range_null {W H : Int} {body : Int → RenderState → Option RenderState} (a b : Int)
    (hb : ∀ k, a ≤ k → k < b →
      body k ⟨W, H, none⟩ = none ∨ body k ⟨W, H, none⟩ = some ⟨W, H, none⟩)
    (hk : ∃ k, a ≤ k ∧ k < b ∧ body k ⟨W, H, none⟩ = none) :
    for_range a b body ⟨W, H, none⟩ = none := by
  obtain ⟨k, h1, h2, h3⟩ := hk
  have hab : a ≤ b := by linarith
  have hn : a + (((b - a).toNat : Nat) : Int) = b := by
    rw [Int.toNat_of_nonneg (by linarith)]
    ring
  apply for_count_null
  · intro j j1 j2
    exact hb j j1 (by rw [hn] at j2; exact j2)
  · exact ⟨k, h1, by rw [hn]; exact h2, h3⟩

/-- On a null pixel store a loop whose body leaves the state alone leaves
the state alone. -/
theorem for_count_idle {W H : Int} {body : Int → RenderState → Option RenderState} (n : Nat) :
    ∀ a : Int, (∀ k, a ≤ k → k < a + n → body k ⟨W, H, none⟩ = some ⟨W, H, none⟩) →
      for_count n a body ⟨W, H, none⟩ = some ⟨W, H, none⟩ := by
  induction n with
  | zero => exact fun _ _ => rfl
  | succ n ih =>
    intro a hb
    show (match body a ⟨W, H, none⟩ with
      | none => none
      | some rs1 => for_count n (a + 1) body rs1) = _
    rw [hb a (le_refl a) (by push_cast; linarith)]
    exact ih (a + 1) (fun j j1 j2 => hb j (by linarith) (by push_cast; linarith))

theorem text_len_eq (text : List Char) : ∀ len : Int, text_len text len = len + text.length := by
  induction text with
  | nil => intro len; simp [text_len]
  | cons c rest ih =>
    intro len
    rw [text_len, ih]
    simp only [List.length_cons]
    push_cast
    ring

theorem keeps_mono {W H : Int} {B C : Int → Prop} {f : RenderState → Option RenderState}
    (hf : Keeps W H B f) (h : ∀ j, B j → C j) : Keeps W H C f := by
  intro mem
  obtain ⟨mem1, e, k⟩ := hf mem
  exact ⟨mem1, e, fun j hj => k j (fun hb => hj (h j hb))⟩

theorem get_glyph_isSome (c : Char) :
    (get_glyph c).isSome = true ↔ c ∈ spec_glyph_chars := by
  unfold get_glyph spec_glyph_chars
  split <;> simp_all

theorem get_glyph_rows (c : Char) (g : List Nat) (h : get_glyph c = some g) :
    g.length = 7 ∧ ∀ row ∈ g, row < 32 := by
  unfold get_glyph at h
  split at h <;> first
    | (cases h; exact ⟨rfl, by decide⟩)
    | exact Option.noConfusion h

theorem rgb_eq (r g b : Nat) (hr : r < 256) (hg : g < 256) (hb : b < 256) :
    rgb r g b = r + 256 * g + 65536 * b := by
  unfold rgb
  rw [Nat.shiftLeft_eq, Nat.shiftLeft_eq, Nat.mod_eq_of_lt (by omega), Nat.mod_eq_of_lt (by omega)]
  have h1 : b * 2 ^ 16 ||| g * 2 ^ 8 = 2 ^ 8 * (2 ^ 8 * b + g) := by
    have := Nat.mul_add_lt_is_or (show g * 2 ^ 8 < 2 ^ 16 by omega) b
    rw [mul_comm b, ← this]
    ring
  rw [h1, ← Nat.mul_add_lt_is_or (show r < 2 ^ 8 by omega)]
  ring

section RenderLemmas

variable {α : Type} [LinearOrderedField α] [FloorRing α]

theorem paints_draw_rect (r : RectF α) (c : Nat) (W H : Int) :
    Paints W H c (rect_pixels r W H) (draw_rect r c) := by
  have h := @paints_for_range W H c
    (fun y j => ∃ x : Int, max 0 (truncf r.x) ≤ x ∧ x < min W (truncf (r.x + r.w)) ∧
      j = y * W + x)
    (fun y rs => for_range (max 0 (truncf r.x)) (min W (truncf (r.x + r.w)))
      (fun x rs => write_pixel rs (y * rs.width + x) c) rs)
    (max 0 (truncf r.y)) (min H (truncf (r.y + r.h)))
    (fun y _ _ => @paints_for_range W H c (fun x j => j = y * W + x)
      (fun x rs => write_pixel rs (y * rs.width + x) c)
      (max 0 (truncf r.x)) (min W (truncf (r.x + r.w)))
      (fun x _ _ => paints_write W H c (y * W + x)))
  intro mem
  obtain ⟨mem1, e, h1, h2⟩ := h mem
  refine ⟨mem1, ?_, h1, h2⟩
  rw [← e]
  simp only [draw_rect, clamp_low_eq, clamp_high_eq, Option.isNone_some, Bool.false_eq_true,
    if_false]

theorem paints_draw_circle (cx cy radius : α) (c : Nat) (W H : Int) :
    Paints W H c (circle_pixels cx cy radius W H) (draw_circle cx cy radius c) := by
  have hcell : ∀ x y : Int, Paints W H c
      (fun j => ((x : α) - cx) * ((x : α) - cx) + ((y : α) - cy) * ((y : α) - cy)
        ≤ radius * radius ∧ j = y * W + x)
      (fun rs => if ((x : α) - cx) * ((x : α) - cx) + ((y : α) - cy) * ((y : α) - cy)
        ≤ radius * radius then write_pixel rs (y * rs.width + x) c else some rs) := by
    intro x y
    by_cases hin : ((x : α) - cx) * ((x : α) - cx) + ((y : α) - cy) * ((y : α) - cy)
        ≤ radius * radius
    · simp only [hin, if_true, true_and]
      exact paints_write W H c (y * W + x)
    · simp only [hin, if_false, false_and]
      exact paints_skip W H c
  have h := @paints_for_range W H c
    (fun y j => ∃ x : Int, max 0 (truncf (cx - radius)) ≤ x ∧ x < min W (truncf (cx + radius)) ∧
      (((x : α) - cx) * ((x : α) - cx) + ((y : α) - cy) * ((y : α) - cy) ≤ radius * radius ∧
        j = y * W + x))
    (fun y rs => for_range (max 0 (truncf (cx - radius))) (min W (truncf (cx + radius)))
      (fun x rs => if ((x : α) - cx) * ((x : α) - cx) + ((y : α) - cy) * ((y : α) - cy)
        ≤ radius * radius then write_pixel rs (y * rs.width + x) c else some rs) rs)
    (max 0 (truncf (cy - radius))) (min H (truncf (cy + radius)))
    (fun y _ _ => @paints_for_range W H c
      (fun x j => ((x : α) - cx) * ((x : α) - cx) + ((y : α) - cy) * ((y : α) - cy)
        ≤ radius * radius ∧ j = y * W + x)
      (fun x rs => if ((x : α) - cx) * ((x : α) - cx) + ((y : α) - cy) * ((y : α) - cy)
        ≤ radius * radius then write_pixel rs (y * rs.width + x) c else some rs)
      (max 0 (truncf (cx - radius))) (min W (truncf (cx + radius)))
      (fun x _ _ => hcell x y))
  intro mem
  obtain ⟨mem1, e, h1, h2⟩ := h mem
  refine ⟨mem1, ?_, h1, h2⟩
  rw [← e]
  simp only [draw_circle, clamp_low_eq, clamp_high_eq]

theorem truncf_intCast (n : Int) : truncf ((n : Int) : α) = n := by
  unfold truncf
  split_ifs
  · exact Int.floor_intCast n
  · exact Int.ceil_intCast n

theorem truncf_nonpos {v : α} (h : v ≤ 0) : truncf v ≤ 0 := by
  unfold truncf
  split_ifs with h0
  · have : v = 0 := le_antisymm h h0
    rw [this, Int.floor_zero]
  · exact Int.ceil_le.mpr (by simpa using h)

theorem le_truncf {v : α} {n : Int} (h : (n : α) ≤ v) : n ≤ truncf v := by
  unfold truncf
  split_ifs
  · exact Int.le_floor.mpr h
  · exact Int.cast_le.mp (le_trans h (Int.le_ceil v))

theorem clear_screen_null (color : Nat) (W H : Int) :
    clear_screen color ⟨W, H, none⟩ = some ⟨W, H, none⟩ := rfl

theorem draw_rect_null (r : RectF α) (color : Nat) (W H : Int) :
    draw_rect r color ⟨W, H, none⟩ = some ⟨W, H, none⟩ := rfl

/-- With a null pixel store `draw_circle` stores through the null pointer as
soon as one pixel of the clipped bounding box passes the distance test. -/
theorem draw_circle_null (cx cy radius : α) (color : Nat) (W H : Int) (x y : Int)
    (hx0 : max 0 (truncf (cx - radius)) ≤ x) (hx1 : x < min W (truncf (cx + radius)))
    (hy0 : max 0 (truncf (cy - radius)) ≤ y) (hy1 : y < min H (truncf (cy + radius)))
    (hin : ((x : α) - cx) * ((x : α) - cx) + ((y : α) - cy) * ((y : α) - cy)
      ≤ radius * radius) :
    draw_circle cx cy radius color ⟨W, H, none⟩ = none := by
  have hcell : ∀ x1 y1 : Int,
      (fun (rs : RenderState) => if ((x1 : α) - cx) * ((x1 : α) - cx) +
          ((y1 : α) - cy) * ((y1 : α) - cy) ≤ radius * radius
        then write_pixel rs (y1 * rs.width + x1) color else some rs) ⟨W, H, none⟩ = none ∨
      (fun (rs : RenderState) => if ((x1 : α) - cx) * ((x1 : α) - cx) +
          ((y1 : α) - cy) * ((y1 : α) - cy) ≤ radius * radius
        then write_pixel rs (y1 * rs.width + x1) color else some rs) ⟨W, H, none⟩
        = some ⟨W, H, none⟩ := by
    intro x1 y1
    by_cases h : ((x1 : α) - cx) * ((x1 : α) - cx) + ((y1 : α) - cy) * ((y1 : α) - cy)
        ≤ radius * radius
    · left
      simp only [h, if_true]
      rfl
    · right
      simp only [h, if_false]
  have hrow : ∀ y1 : Int,
      for_range (max 0 (truncf (cx - radius))) (min W (truncf (cx + radius)))
        (fun x1 rs => if ((x1 : α) - cx) * ((x1 : α) - cx) +
            ((y1 : α) - cy) * ((y1 : α) - cy) ≤ radius * radius
          then write_pixel rs (y1 * rs.width + x1) color else some rs) ⟨W, H, none⟩ = none ∨
      for_range (max 0 (truncf (cx - radius))) (min W (truncf (cx + radius)))
        (fun x1 rs => if ((x1 : α) - cx) * ((x1 : α) - cx) +
            ((y1 : α) - cy) * ((y1 : α) - cy) ≤ radius * radius
          then write_pixel rs (y1 * rs.width + x1) color else some rs) ⟨W, H, none⟩
        = some ⟨W, H, none⟩ := by
    intro y1
    by_cases h : ∃ k, max 0 (truncf (cx - radius)) ≤ k ∧ k < min W (truncf (cx + radius)) ∧
        (fun (rs : RenderState) => if ((k : α) - cx) * ((k : α) - cx) +
            ((y1 : α) - cy) * ((y1 : α) - cy) ≤ radius * radius
          then write_pixel rs (y1 * rs.width + k) color else some rs) ⟨W, H, none⟩ = none
    · left
      exact for_range_null _ _ (fun k _ _ => hcell k y1) h
    · right
      apply for_count_idle
      intro k k1 k2
      rcases hcell k y1 with e | e
      · exfalso
        apply h
        refine ⟨k, k1, ?_, e⟩
        rcases le_or_lt (max 0 (truncf (cx - radius))) (min W (truncf (cx + radius))) with
          hle | hlt
        · rw [Int.toNat_of_nonneg (by linarith)] at k2
          linarith
        · rw [Int.toNat_eq_zero.mpr (by linarith)] at k2
          simp only [Nat.cast_zero, add_zero] at k2
          linarith
      · exact e
  have hgoal : for_range (max 0 (truncf (cy - radius))) (min H (truncf (cy + radius)))
      (fun y1 rs => for_range (max 0 (truncf (cx - radius))) (min W (truncf (cx + radius)))
        (fun x1 rs => if ((x1 : α) - cx) * ((x1 : α) - cx) +
            ((y1 : α) - cy) * ((y1 : α) - cy) ≤ radius * radius
          then write_pixel rs (y1 * rs.width + x1) color else some rs) rs) ⟨W, H, none⟩
      = none := by
    apply for_range_null _ _ (fun k _ _ => hrow k)
    refine ⟨y, hy0, hy1, ?_⟩
    apply for_range_null _ _ (fun k _ _ => hcell k y)
    refine ⟨x, hx0, hx1, ?_⟩
    simp only [hin, if_true]
    rfl
  rw [← hgoal]
  simp only [draw_circle, clamp_low_eq, clamp_high_eq]

/-- The cell of glyph row `row` and column `col` lies in the box of its
character. -/
theorem cell_in_box (x y scale row col W H : Int) (hr0 : 0 ≤ row) (hr1 : row < 7)
    (hc0 : 0 ≤ col) (hc1 : col < 5) (j : Int)
    (h : rect_pixels (⟨((x + col * scale : Int) : α), ((y + row * scale : Int) : α),
      (scale : α), (scale : α)⟩ : RectF α) W H j) :
    pixel_box x y (6 * scale) (7 * scale) W H j := by
  obtain ⟨r, hy0, hy1, c, hx0, hx1, hj⟩ := h
  have ex : (((x + col * scale : Int) : α) + (scale : α)) = ((x + col * scale + scale : Int) : α) := by
    push_cast; ring
  have ey : (((y + row * scale : Int) : α) + (scale : α)) = ((y + row * scale + scale : Int) : α) := by
    push_cast; ring
  simp only [ex, ey, truncf_intCast] at hx0 hx1 hy0 hy1
  have a1 := le_trans (le_max_left _ _) hx0
  have a2 := le_trans (le_max_right _ _) hx0
  have a3 := lt_of_lt_of_le hx1 (min_le_left _ _)
  have a4 := lt_of_lt_of_le hx1 (min_le_right _ _)
  have b1 := le_trans (le_max_left _ _) hy0
  have b2 := le_trans (le_max_right _ _) hy0
  have b3 := lt_of_lt_of_le hy1 (min_le_left _ _)
  have b4 := lt_of_lt_of_le hy1 (min_le_right _ _)
  have hs : 0 < scale := by linarith
  have c1 : 0 ≤ col * scale := mul_nonneg hc0 hs.le
  have c2 : col * scale ≤ 4 * scale := mul_le_mul_of_nonneg_right (by linarith) hs.le
  have r1 : 0 ≤ row * scale := mul_nonneg hr0 hs.le
  have r2 : row * scale ≤ 6 * scale := mul_le_mul_of_nonneg_right (by linarith) hs.le
  exact ⟨c, r, by linarith, by linarith, by linarith, by linarith, a1, a3, b1, b3, hj⟩

theorem keeps_draw_char (c : Char) (x y scale : Int) (color : Nat) (W H : Int) :
    Keeps W H (pixel_box x y (6 * scale) (7 * scale) W H) (draw_char α c x y scale color) := by
  by_cases hsp : c = ' '
  · intro mem
    exact ⟨mem, by simp [draw_char, hsp], fun _ _ => rfl⟩
  · cases hg : get_glyph c with
    | none =>
      intro mem
      exact ⟨mem, by simp [draw_char, hsp, hg], fun _ _ => rfl⟩
    | some glyph =>
      have hcell : ∀ row col : Int, 0 ≤ row → row < 7 → 0 ≤ col → col < 5 →
          Keeps W H (pixel_box x y (6 * scale) (7 * scale) W H)
            (fun rs => if glyph.getD row.toNat 0 &&& (1 <<< (4 - col).toNat) ≠ 0 then
              draw_rect (⟨((x + col * scale : Int) : α), ((y + row * scale : Int) : α),
                (scale : α), (scale : α)⟩ : RectF α) color rs
            else some rs) := by
        intro row col hr0 hr1 hc0 hc1
        by_cases hb : glyph.getD row.toNat 0 &&& (1 <<< (4 - col).toNat) ≠ 0
        · simp only [if_pos hb]
          exact keeps_of_paints (paints_draw_rect _ color W H)
            (cell_in_box x y scale row col W H hr0 hr1 hc0 hc1)
        · simp only [if_neg hb]
          exact keeps_skip W H _
      have h := @keeps_for_range W H (pixel_box x y (6 * scale) (7 * scale) W H)
        (fun row rs => for_range 0 5 (fun col rs =>
          if glyph.getD row.toNat 0 &&& (1 <<< (4 - col).toNat) ≠ 0 then
            draw_rect (⟨((x + col * scale : Int) : α), ((y + row * scale : Int) : α),
              (scale : α), (scale : α)⟩ : RectF α) color rs
          else some rs) rs) 0 7
        (fun row hr0 hr1 => keeps_for_range 0 5 (fun col hc0 hc1 =>
          hcell row col hr0 hr1 hc0 hc1))
      intro mem
      obtain ⟨mem1, e, k⟩ := h mem
      refine ⟨mem1, ?_, k⟩
      rw [← e]
      simp only [draw_char, hsp, hg, if_false]

theorem keeps_draw_text (text : List Char) (y scale : Int) (color : Nat) (W H : Int) :
    ∀ cursor : Int,
      Keeps W H (pixel_box cursor y ((text.length : Int) * 6 * scale) (7 * scale) W H)
        (draw_text α text cursor y scale color) := by
  induction text with
  | nil => exact fun cursor mem => ⟨mem, rfl, fun _ _ => rfl⟩
  | cons c rest ih =>
    intro cursor mem
    have hn : (0 : Int) ≤ (rest.length : Int) := Int.natCast_nonneg _
    have hlen : (((c :: rest).length : Nat) : Int) = (rest.length : Int) + 1 := by
      simp only [List.length_cons]; push_cast; ring
    obtain ⟨mem1, e1, k1⟩ := @keeps_draw_char α _ _ c cursor y scale color W H mem
    obtain ⟨mem2, e2, k2⟩ := ih (cursor + 6 * scale) mem1
    refine ⟨mem2, ?_, ?_⟩
    · show (match draw_char α c cursor y scale color ⟨W, H, some mem⟩ with
        | none => none
        | some rs1 => draw_text α rest (cursor + 6 * scale) y scale color rs1) = _
      rw [e1]
      exact e2
    · intro j hj
      have h1 : ¬ pixel_box cursor y (6 * scale) (7 * scale) W H j := by
        rintro ⟨cc, r, p1, p2, p3, p4, p5, p6, p7, p8, p9⟩
        apply hj
        have hs : 0 < scale := by linarith
        have : 0 ≤ (rest.length : Int) * (6 * scale) := mul_nonneg hn (by linarith)
        refine ⟨cc, r, p1, ?_, p3, p4, p5, p6, p7, p8, p9⟩
        rw [hlen]
        linarith
      have h2 : ¬ pixel_box (cursor + 6 * scale) y ((rest.length : Int) * 6 * scale)
          (7 * scale) W H j := by
        rintro ⟨cc, r, p1, p2, p3, p4, p5, p6, p7, p8, p9⟩
        apply hj
        have hpos : 0 < (rest.length : Int) * (6 * scale) := by linarith
        have hs : 0 < scale := by
          by_contra hneg
          have : (rest.length : Int) * (6 * scale) ≤ 0 :=
            mul_nonpos_of_nonneg_of_nonpos hn (by linarith)
          linarith
        refine ⟨cc, r, by linarith, ?_, p3, p4, p5, p6, p7, p8, p9⟩
        rw [hlen]
        linarith
      rw [k2 j h2, k1 j h1]

theorem draw_char_null (c : Char) (x y scale : Int) (color : Nat) (W H : Int) :
    draw_char α c x y scale color ⟨W, H, none⟩ = some ⟨W, H, none⟩ := by
  by_cases hsp : c = ' '
  · simp [draw_char, hsp]
  · cases hg : get_glyph c with
    | none => simp [draw_char, hsp, hg]
    | some glyph =>
      have h : for_range 0 7 (fun row rs => for_range 0 5 (fun col rs =>
          if glyph.getD row.toNat 0 &&& (1 <<< (4 - col).toNat) ≠ 0 then
            draw_rect (⟨((x + col * scale : Int) : α), ((y + row * scale : Int) : α),
              (scale : α), (scale : α)⟩ : RectF α) color rs
          else some rs) rs) ⟨W, H, none⟩ = some ⟨W, H, none⟩ := by
        apply for_count_idle
        intro row _ _
        apply for_count_idle
        intro col _ _
        show (if glyph.getD row.toNat 0 &&& (1 <<< (4 - col).toNat) ≠ 0 then
            draw_rect (⟨((x + col * scale : Int) : α), ((y + row * scale : Int) : α),
              (scale : α), (scale : α)⟩ : RectF α) color ⟨W, H, none⟩
          else some ⟨W, H, none⟩) = some ⟨W, H, none⟩
        split_ifs
        · rfl
        · rfl
      rw [← h]
      simp only [draw_char, hsp, hg, if_false]

theorem draw_text_null (text : List Char) (y scale : Int) (color : Nat) (W H : Int) :
    ∀ cursor : Int, draw_text α text cursor y scale color ⟨W, H, none⟩ = some ⟨W, H, none⟩ := by
  induction text with
  | nil => exact fun _ => rfl
  | cons c rest ih =>
    intro cursor
    show (match draw_char α c cursor y scale color ⟨W, H, none⟩ with
      | none => none
      | some rs1 => draw_text α rest (cursor + 6 * scale) y scale color rs1) = _
    rw [draw_char_null]
    exact ih _

end RenderLemmas

theorem real_speed_pos (g : GameState ℝ)
    (hs : Real.sqrt (g.ball.vel.x ^ 2 + g.ball.vel.y ^ 2) ≠ 0) :
    0 < reflect_speed (Libm.mk Real.sqrt Real.cos Real.sin) g := by
  rw [real_speed]
  have h0 := Real.sqrt_nonneg (g.ball.vel.x ^ 2 + g.ball.vel.y ^ 2)
  have : 0 < Real.sqrt (g.ball.vel.x ^ 2 + g.ball.vel.y ^ 2) := lt_of_le_of_ne h0 (Ne.symm hs)
  exact lt_min (by linarith) (by norm_num)

/-- With exact `sqrtf`: when the player-paddle branch of `update_ball` fires
with the paddles at their served x positions, the ball ends the call at
x = 48 moving right. -/
theorem real_player_contact (dt : ℝ) (w : World ℝ)
    (hpx : w.g_game.player.rect.x = 30) (hpw : w.g_game.player.rect.w = 18)
    (hex : w.g_game.enemy.rect.x = 1232) (hbw : w.g_game.ball.rect.w = 14)
    (hp : hits_player (ball_move dt w.g_game) = true) :
    (update_ball (Libm.mk Real.sqrt Real.cos Real.sin) dt w).g_game.ball.rect.x = 48 ∧
    0 < (update_ball (Libm.mk Real.sqrt Real.cos Real.sin) dt w).g_game.ball.vel.x := by
  obtain ⟨a1, a2, _, _, _, a6, _, _, _, _⟩ := ball_move_frame dt w.g_game
  have hvx : (ball_move dt w.g_game).ball.vel.x < 0 := by
    unfold hits_player at hp
    simp only [Bool.and_eq_true, decide_eq_true_eq] at hp
    exact hp.1
  have hplayer : ball_hit_player (Libm.mk Real.sqrt Real.cos Real.sin) (ball_move dt w.g_game) =
      reflect_ball_from_paddle (Libm.mk Real.sqrt Real.cos Real.sin)
        (ball_move dt w.g_game).player true
        { ball_move dt w.g_game with ball := { (ball_move dt w.g_game).ball with
            rect := { (ball_move dt w.g_game).ball.rect with
              x := (ball_move dt w.g_game).player.rect.x +
                (ball_move dt w.g_game).player.rect.w } } } := by
    unfold ball_hit_player
    rw [if_pos hp]
  have hvpos := (real_reflect_vel_x (ball_move dt w.g_game).player true
    { ball_move dt w.g_game with ball := { (ball_move dt w.g_game).ball with
        rect := { (ball_move dt w.g_game).ball.rect with
          x := (ball_move dt w.g_game).player.rect.x +
            (ball_move dt w.g_game).player.rect.w } } } (ne_of_lt hvx)).1 rfl
  rw [← hplayer] at hvpos
  have hx : (ball_hit_player (Libm.mk Real.sqrt Real.cos Real.sin)
      (ball_move dt w.g_game)).ball.rect.x = 48 := by
    rw [hplayer, reflect_eq]
    simp only [a1, hpx, hpw]
    norm_num
  obtain ⟨_, b2, _, _, _, b6, _, _⟩ :=
    ball_hit_player_frame (Libm.mk Real.sqrt Real.cos Real.sin) (ball_move dt w.g_game)
  have he : hits_enemy (ball_hit_player (Libm.mk Real.sqrt Real.cos Real.sin)
      (ball_move dt w.g_game)) = false := by
    unfold hits_enemy intersects
    rw [b2, a2, hex, hx, b6, a6, hbw]
    norm_num
  have hres : ball_resolve (Libm.mk Real.sqrt Real.cos Real.sin) dt w.g_game =
      ball_hit_player (Libm.mk Real.sqrt Real.cos Real.sin) (ball_move dt w.g_game) := by
    unfold ball_resolve ball_hit_enemy
    rw [if_neg (by simp [he])]
  have hfinal := update_ball_no_score (Libm.mk Real.sqrt Real.cos Real.sin) dt w
    (by rw [hres, hx, b6, a6, hbw]; norm_num)
    (by rw [hres, hx]; norm_num [LOGICAL_WIDTH])
  rw [hfinal, hres]
  exact ⟨hx, hvpos⟩

/-- With exact `sqrtf`: when the enemy-paddle branch of `update_ball` fires
(and the player-paddle branch does not) with the enemy paddle at its served
x position, the ball ends the call at x = 1232 - 14 = 1218 moving left. -/
theorem real_enemy_contact (dt : ℝ) (w : World ℝ)
    (hex : w.g_game.enemy.rect.x = 1232) (hbw : w.g_game.ball.rect.w = 14)
    (hp : hits_player (ball_move dt w.g_game) = false)
    (he : hits_enemy (ball_move dt w.g_game) = true) :
    (update_ball (Libm.mk Real.sqrt Real.cos Real.sin) dt w).g_game.ball.rect.x = 1218 ∧
    (update_ball (Libm.mk Real.sqrt Real.cos Real.sin) dt w).g_game.ball.vel.x < 0 := by
  obtain ⟨_, a2, _, _, _, a6, _, _, _, _⟩ := ball_move_frame dt w.g_game
  have hvx : 0 < (ball_move dt w.g_game).ball.vel.x := by
    unfold hits_enemy at he
    simp only [Bool.and_eq_true, decide_eq_true_eq] at he
    exact he.1
  have hpl : ball_hit_player (Libm.mk Real.sqrt Real.cos Real.sin) (ball_move dt w.g_game) =
      ball_move dt w.g_game := by
    unfold ball_hit_player
    rw [if_neg (by simp [hp])]
  have henemy : ball_hit_enemy (Libm.mk Real.sqrt Real.cos Real.sin) (ball_move dt w.g_game) =
      reflect_ball_from_paddle (Libm.mk Real.sqrt Real.cos Real.sin)
        (ball_move dt w.g_game).enemy false
        { ball_move dt w.g_game with ball := { (ball_move dt w.g_game).ball with
            rect := { (ball_move dt w.g_game).ball.rect with
              x := (ball_move dt w.g_game).enemy.rect.x -
                (ball_move dt w.g_game).ball.rect.w } } } := by
    unfold ball_hit_enemy
    rw [if_pos he]
  have hvneg := (real_reflect_vel_x (ball_move dt w.g_game).enemy false
    { ball_move dt w.g_game with ball := { (ball_move dt w.g_game).ball with
        rect := { (ball_move dt w.g_game).ball.rect with
          x := (ball_move dt w.g_game).enemy.rect.x -
            (ball_move dt w.g_game).ball.rect.w } } } (ne_of_gt hvx)).2 rfl
  rw [← henemy] at hvneg
  have hx : (ball_hit_enemy (Libm.mk Real.sqrt Real.cos Real.sin)
      (ball_move dt w.g_game)).ball.rect.x = 1218 := by
    rw [henemy, reflect_eq]
    simp only [a2, a6, hex, hbw]
    norm_num
  obtain ⟨_, _, _, _, _, b6, _, _⟩ :=
    ball_hit_enemy_frame (Libm.mk Real.sqrt Real.cos Real.sin) (ball_move dt w.g_game)
  have hres : ball_resolve (Libm.mk Real.sqrt Real.cos Real.sin) dt w.g_game =
      ball_hit_enemy (Libm.mk Real.sqrt Real.cos Real.sin) (ball_move dt w.g_game) := by
    unfold ball_resolve
    rw [hpl]
  have hfinal := update_ball_no_score (Libm.mk Real.sqrt Real.cos Real.sin) dt w
    (by rw [hres, hx, b6, a6, hbw]; norm_num)
    (by rw [hres, hx]; norm_num [LOGICAL_WIDTH])
  rw [hfinal, hres]
  exact ⟨hx, hvneg⟩

/-- A ball not faster than BALL_SPEED_MAX moves at most 1100 / 60 horizontally
in one fixed step. -/
theorem real_step_bound (g : GameState ℝ)
    (hs : Real.sqrt (g.ball.vel.x ^ 2 + g.ball.vel.y ^ 2) ≤ BALL_SPEED_MAX) :
    |g.ball.vel.x * FIXED_DT| ≤ 1100 / 60 := by
  simp only [BALL_SPEED_MAX, FIXED_DT] at hs ⊢
  have h0 := Real.sqrt_nonneg (g.ball.vel.x ^ 2 + g.ball.vel.y ^ 2)
  have hsq := Real.sq_sqrt (add_nonneg (sq_nonneg g.ball.vel.x) (sq_nonneg g.ball.vel.y))
  have hv : |g.ball.vel.x| ≤ 1100 := by
    apply abs_le_of_sq_le_sq _ (by norm_num)
    nlinarith [sq_nonneg g.ball.vel.y]
  rw [abs_mul, abs_of_pos (show (0 : ℝ) < 1 / 60 by norm_num)]
  linarith

/-! ### Binary32 arithmetic -/

/-- The decimal constants of the source in binary32: `1.0f / 60.0f` is
0x3C888889, `1.05f` is 0x3F866666, `0.90f` is 0x3F666666, `0.0174532925f` is
0x3C8EFA35, `0.20f` is 0x3E4CCCCD; and `sqrtf(2.0f)` is 0x3FB504F3. -/
theorem f32_constants :
    FIXED_DT_f32 = 8947849 / 536870912 ∧ f32 1.05 = 4404019 / 4194304 ∧
    f32 0.90 = 7549747 / 8388608 ∧ f32 0.0174532925 = 9370165 / 536870912 ∧
    f32 0.20 = 13421773 / 67108864 ∧ sqrtf_f32 2 = 11863283 / 8388608 := by
  decide!

/-- A tie goes to the even neighbour: `1 + 2^-24` is rounded down to 1 and
`1 + 3 * 2^-24` up to `1 + 2^-22`; the least subnormal number is 2^-149, and
half of it is rounded to 0. -/
theorem f32_ties :
    f32 (1 + 1 / 2 ^ 24) = 1 ∧ f32 (1 + 3 / 2 ^ 24) = 1 + 1 / 2 ^ 22 ∧
    f32 (1 / 2 ^ 149) = 1 / 2 ^ 149 ∧ f32 (1 / 2 ^ 150) = 0 ∧
    f32 (3 / 2 ^ 150) = 1 / 2 ^ 148 := by
  decide!

/-! ### The rally in binary32 -/

section Theorems

variable {α : Type} [LinearOrderedField α]

/-- C1: for every dt > 0, every input axis and every paddle whose height h is
in [0, LOGICAL_HEIGHT], apply_paddle_physics leaves y in [0, LOGICAL_HEIGHT - h];
and whenever a bound check fired (the integrated y was below 0 or above
LOGICAL_HEIGHT - h) the resulting velocity is exactly 0. -/
theorem apply_paddle_physics_bounds (paddle : Paddle α) (input_axis dt : α)
    (hdt : 0 < dt) (h0 : 0 ≤ paddle.rect.h)
    (h1 : paddle.rect.h ≤ ((LOGICAL_HEIGHT : Int) : α)) :
    0 ≤ (apply_paddle_physics paddle input_axis dt).rect.y ∧
    (apply_paddle_physics paddle input_axis dt).rect.y
      ≤ ((LOGICAL_HEIGHT : Int) : α) - paddle.rect.h ∧
    (apply_paddle_physics paddle input_axis dt).rect.h = paddle.rect.h ∧
    ((paddle_integrate paddle input_axis dt).rect.y < 0 ∨
      (paddle_integrate paddle input_axis dt).rect.y
        > ((LOGICAL_HEIGHT : Int) : α) - paddle.rect.h →
      (apply_paddle_physics paddle input_axis dt).vy = 0) := by
  have hh : (paddle_integrate paddle input_axis dt).rect.h = paddle.rect.h := rfl
  unfold apply_paddle_physics paddle_clamp_high paddle_clamp_low
  generalize paddle_integrate paddle input_axis dt = q at hh ⊢
  rw [← hh] at h0 h1 ⊢
  by_cases c1 : q.rect.y < 0
  · have c2 : ¬ ((0 : α) > ((LOGICAL_HEIGHT : Int) : α) - q.rect.h) := by
      simpa using h1
    rw [if_pos c1]
    simp only []
    rw [if_neg c2]
    exact ⟨le_refl _, by simpa using h1, rfl, fun _ => rfl⟩
  · rw [if_neg c1]
    by_cases c2 : q.rect.y > ((LOGICAL_HEIGHT : Int) : α) - q.rect.h
    · rw [if_pos c2]
      exact ⟨by simpa using h1, le_refl _, rfl, fun _ => rfl⟩
    · rw [if_neg c2]
      refine ⟨not_lt.mp c1, not_lt.mp c2, rfl, ?_⟩
      rintro (h | h)
      · exact absurd h c1
      · exact absurd h c2

/-- Witness for C1 at the served player paddle pushed down for one tick. -/
theorem apply_paddle_physics_bounds_witness :
    0 ≤ (apply_paddle_physics (⟨⟨30, 600, 18, 115⟩, 700⟩ : Paddle ℚ) 1 (1 / 60)).rect.y ∧
    (apply_paddle_physics (⟨⟨30, 600, 18, 115⟩, 700⟩ : Paddle ℚ) 1 (1 / 60)).rect.y
      ≤ ((LOGICAL_HEIGHT : Int) : ℚ) - 115 ∧
    (apply_paddle_physics (⟨⟨30, 600, 18, 115⟩, 700⟩ : Paddle ℚ) 1 (1 / 60)).rect.h = 115 ∧
    ((paddle_integrate (⟨⟨30, 600, 18, 115⟩, 700⟩ : Paddle ℚ) 1 (1 / 60)).rect.y < 0 ∨
      (paddle_integrate (⟨⟨30, 600, 18, 115⟩, 700⟩ : Paddle ℚ) 1 (1 / 60)).rect.y
        > ((LOGICAL_HEIGHT : Int) : ℚ) - 115 →
      (apply_paddle_physics (⟨⟨30, 600, 18, 115⟩, 700⟩ : Paddle ℚ) 1 (1 / 60)).vy = 0) :=
  apply_paddle_physics_bounds (⟨⟨30, 600, 18, 115⟩, 700⟩ : Paddle ℚ) 1 (1 / 60)
    (by norm_num) (by norm_num) (by norm_num [LOGICAL_HEIGHT])

/-- C2 (counterexample): with the player paddle at the top of the field, a
ball that reaches the top edge while overlapping the paddle keeps y = 0 and
leaves update_ball with a vertical velocity that points up, out of the field:
the paddle reflection overwrites the velocity the wall check had set. -/
theorem update_ball_wall_velocity_counterexample :
    (update_ball (Libm.mk Real.sqrt Real.cos Real.sin) (1 / 60)
      (sample_world 0 (sample_state 0 ⟨⟨50, 3, 14, 14⟩, ⟨-300, -400⟩⟩))).g_game.ball.rect.y = 0 ∧
    (update_ball (Libm.mk Real.sqrt Real.cos Real.sin) (1 / 60)
      (sample_world 0 (sample_state 0 ⟨⟨50, 3, 14, 14⟩, ⟨-300, -400⟩⟩))).g_game.ball.vel.y < 0 := by
  have hmove : ball_move (1 / 60 : ℝ) (sample_state 0 ⟨⟨50, 3, 14, 14⟩, ⟨-300, -400⟩⟩) =
      sample_state 0 ⟨⟨45, 0, 14, 14⟩, ⟨-300, 400⟩⟩ := by
    simp only [ball_move, ball_integrate, ball_wall_top, ball_wall_bottom, sample_state,
      LOGICAL_HEIGHT]
    norm_num
  have hhit : hits_player (sample_state (0 : ℝ) ⟨⟨45, 0, 14, 14⟩, ⟨-300, 400⟩⟩) = true := by
    norm_num [hits_player, intersects, sample_state]
  have hplayer : ball_hit_player (Libm.mk Real.sqrt Real.cos Real.sin)
      (sample_state 0 ⟨⟨45, 0, 14, 14⟩, ⟨-300, 400⟩⟩) =
      reflect_ball_from_paddle (Libm.mk Real.sqrt Real.cos Real.sin) ⟨⟨30, 0, 18, 115⟩, 0⟩ true
        (sample_state 0 ⟨⟨48, 0, 14, 14⟩, ⟨-300, 400⟩⟩) := by
    unfold ball_hit_player
    rw [if_pos hhit]
    simp only [sample_state]
    norm_num
  have henemy : hits_enemy (reflect_ball_from_paddle (Libm.mk Real.sqrt Real.cos Real.sin)
      ⟨⟨30, 0, 18, 115⟩, 0⟩ true (sample_state 0 ⟨⟨48, 0, 14, 14⟩, ⟨-300, 400⟩⟩)) = false := by
    rw [reflect_eq]
    norm_num [hits_enemy, intersects, sample_state]
  have hres : ball_resolve (Libm.mk Real.sqrt Real.cos Real.sin) (1 / 60)
      (sample_state 0 ⟨⟨50, 3, 14, 14⟩, ⟨-300, -400⟩⟩) =
      reflect_ball_from_paddle (Libm.mk Real.sqrt Real.cos Real.sin) ⟨⟨30, 0, 18, 115⟩, 0⟩ true
        (sample_state 0 ⟨⟨48, 0, 14, 14⟩, ⟨-300, 400⟩⟩) := by
    unfold ball_resolve
    rw [hmove, hplayer]
    unfold ball_hit_enemy
    rw [if_neg (by simp [henemy])]
  have hny : reflect_ny (⟨⟨30, 0, 18, 115⟩, 0⟩ : Paddle ℝ)
      (sample_state 0 ⟨⟨48, 0, 14, 14⟩, ⟨-300, 400⟩⟩) < 0 := by
    norm_num [reflect_ny, clampf, sample_state, PADDLE_MAX_SPEED]
  have hspeed : 0 < reflect_speed (Libm.mk Real.sqrt Real.cos Real.sin)
      (sample_state 0 ⟨⟨48, 0, 14, 14⟩, ⟨-300, 400⟩⟩) := by
    rw [real_speed]
    apply lt_min
    · have : 0 < Real.sqrt ((sample_state (0 : ℝ) ⟨⟨48, 0, 14, 14⟩, ⟨-300, 400⟩⟩).ball.vel.x ^ 2 +
          (sample_state (0 : ℝ) ⟨⟨48, 0, 14, 14⟩, ⟨-300, 400⟩⟩).ball.vel.y ^ 2) := by
        apply Real.sqrt_pos.mpr
        norm_num [sample_state]
      linarith
    · norm_num
  have hnlen := (real_nlen ⟨⟨30, 0, 18, 115⟩, 0⟩ true
    (sample_state 0 ⟨⟨48, 0, 14, 14⟩, ⟨-300, 400⟩⟩)).1
  have hres2 : ball_resolve (Libm.mk Real.sqrt Real.cos Real.sin) (1 / 60)
      (sample_world 0 (sample_state (0 : ℝ) ⟨⟨50, 3, 14, 14⟩, ⟨-300, -400⟩⟩)).g_game =
      reflect_ball_from_paddle (Libm.mk Real.sqrt Real.cos Real.sin) ⟨⟨30, 0, 18, 115⟩, 0⟩ true
        (sample_state 0 ⟨⟨48, 0, 14, 14⟩, ⟨-300, 400⟩⟩) := hres
  have hfinal := update_ball_no_score (Libm.mk Real.sqrt Real.cos Real.sin) (1 / 60)
    (sample_world 0 (sample_state (0 : ℝ) ⟨⟨50, 3, 14, 14⟩, ⟨-300, -400⟩⟩))
    (by rw [hres2, reflect_eq]; norm_num [sample_state])
    (by rw [hres2, reflect_eq]; norm_num [sample_state, LOGICAL_WIDTH])
  rw [hres2] at hfinal
  rw [hfinal]
  refine ⟨rfl, ?_⟩
  simp only [reflect_eq]
  exact mul_neg_of_neg_of_pos (div_neg_of_neg_of_pos hny hnlen) hspeed

/-- C2 (amended): for every game state whose ball is less than LOGICAL_HEIGHT
tall and every dt, if in update_ball neither paddle collision fires (after the
move and the wall checks the ball does not overlap the paddle it moves
towards), then after update_ball a ball on the top edge (y = 0) has vertical
velocity >= 0 and a ball on the bottom edge (y = LOGICAL_HEIGHT - ball height)
has vertical velocity <= 0. -/
theorem update_ball_wall_velocity (m : Libm α) (dt : α) (w : World α)
    (hh : w.g_game.ball.rect.h < ((LOGICAL_HEIGHT : Int) : α))
    (hp : hits_player (ball_move dt w.g_game) = false)
    (he : hits_enemy (ball_move dt w.g_game) = false) :
    ((update_ball m dt w).g_game.ball.rect.y = 0 →
      0 ≤ (update_ball m dt w).g_game.ball.vel.y) ∧
    ((update_ball m dt w).g_game.ball.rect.y =
        ((LOGICAL_HEIGHT : Int) : α) - (update_ball m dt w).g_game.ball.rect.h →
      (update_ball m dt w).g_game.ball.vel.y ≤ 0) := by
  have hserved : ∀ (d : Int) (v : World α),
      ((reset_positions m d v).g_game.ball.rect.y = 0 →
        0 ≤ (reset_positions m d v).g_game.ball.vel.y) ∧
      ((reset_positions m d v).g_game.ball.rect.y =
          ((LOGICAL_HEIGHT : Int) : α) - (reset_positions m d v).g_game.ball.rect.h →
        (reset_positions m d v).g_game.ball.vel.y ≤ 0) := by
    intro d v
    rw [(reset_positions_rects m d v).2.2]
    constructor
    · intro h; norm_num at h
    · intro h; norm_num [LOGICAL_HEIGHT] at h
  unfold update_ball
  rw [ball_resolve_no_hit m dt w.g_game hp he]
  rcases ball_scoring_cases m { w with g_game := ball_move dt w.g_game } with
    ⟨_, h⟩ | ⟨_, _, h⟩ | ⟨_, _, h⟩
  · rw [h]; exact hserved _ _
  · rw [h]; exact hserved _ _
  · rw [h]; exact ball_move_walls dt w.g_game hh

/-- Witness for C2 (amended): a ball that reaches the top edge in mid field. -/
theorem update_ball_wall_velocity_witness :
    ((update_ball (Libm.mk Real.sqrt Real.cos Real.sin) (1 / 60)
        (sample_world 0 (sample_state 302.5 ⟨⟨640, 3, 14, 14⟩, ⟨-300, -400⟩⟩))).g_game.ball.rect.y
        = 0 →
      0 ≤ (update_ball (Libm.mk Real.sqrt Real.cos Real.sin) (1 / 60)
        (sample_world 0 (sample_state 302.5 ⟨⟨640, 3, 14, 14⟩, ⟨-300, -400⟩⟩))).g_game.ball.vel.y) ∧
    ((update_ball (Libm.mk Real.sqrt Real.cos Real.sin) (1 / 60)
        (sample_world 0 (sample_state 302.5 ⟨⟨640, 3, 14, 14⟩, ⟨-300, -400⟩⟩))).g_game.ball.rect.y
        = ((LOGICAL_HEIGHT : Int) : ℝ) - (update_ball (Libm.mk Real.sqrt Real.cos Real.sin) (1 / 60)
        (sample_world 0 (sample_state 302.5 ⟨⟨640, 3, 14, 14⟩, ⟨-300, -400⟩⟩))).g_game.ball.rect.h →
      (update_ball (Libm.mk Real.sqrt Real.cos Real.sin) (1 / 60)
        (sample_world 0 (sample_state 302.5 ⟨⟨640, 3, 14, 14⟩, ⟨-300, -400⟩⟩))).g_game.ball.vel.y
        ≤ 0) :=
  update_ball_wall_velocity (Libm.mk Real.sqrt Real.cos Real.sin) (1 / 60)
    (sample_world 0 (sample_state 302.5 ⟨⟨640, 3, 14, 14⟩, ⟨-300, -400⟩⟩))
    (by norm_num [sample_world, sample_state, LOGICAL_HEIGHT])
    (by norm_num [sample_world, sample_state, LOGICAL_HEIGHT, hits_player, intersects,
      ball_move, ball_integrate, ball_wall_top, ball_wall_bottom])
    (by norm_num [sample_world, sample_state, LOGICAL_HEIGHT, hits_enemy, intersects,
      ball_move, ball_integrate, ball_wall_top, ball_wall_bottom])

/-- C3: for every game state (rects have non-negative width) and dt, if after
movement and collision resolution in update_ball the right edge of the ball is
strictly left of x = 0, then enemy_score grows by exactly 1, player_score is
unchanged and the ball is served with vx > 0; if the ball is past
x = LOGICAL_WIDTH, then player_score grows by exactly 1, enemy_score is
unchanged and the ball is served with vx < 0; and in no call do both scores
change. -/
theorem update_ball_scoring (m : Libm α) (dt : α) (w : World α)
    (hw : 0 ≤ w.g_game.ball.rect.w) :
    ((ball_resolve m dt w.g_game).ball.rect.x + (ball_resolve m dt w.g_game).ball.rect.w < 0 →
      (update_ball m dt w).g_game.enemy_score = w.g_game.enemy_score + 1 ∧
      (update_ball m dt w).g_game.player_score = w.g_game.player_score ∧
      0 < (update_ball m dt w).g_game.ball.vel.x) ∧
    ((ball_resolve m dt w.g_game).ball.rect.x > ((LOGICAL_WIDTH : Int) : α) →
      (update_ball m dt w).g_game.player_score = w.g_game.player_score + 1 ∧
      (update_ball m dt w).g_game.enemy_score = w.g_game.enemy_score ∧
      (update_ball m dt w).g_game.ball.vel.x < 0) ∧
    ((update_ball m dt w).g_game.player_score = w.g_game.player_score ∨
      (update_ball m dt w).g_game.enemy_score = w.g_game.enemy_score) := by
  obtain ⟨_, _, hps, hes, _, hbw, _, _⟩ := ball_resolve_frame m dt w.g_game
  unfold update_ball
  rcases ball_scoring_cases m { w with g_game := ball_resolve m dt w.g_game } with
    ⟨c, h⟩ | ⟨c1, c2, h⟩ | ⟨c1, c2, h⟩
  · rw [h]
    have hv := (reset_positions_vel_x m 1 { w with g_game := { ball_resolve m dt w.g_game with
      enemy_score := (ball_resolve m dt w.g_game).enemy_score + 1 } }).1 (by norm_num)
    have hc : (ball_resolve m dt w.g_game).ball.rect.x + (ball_resolve m dt w.g_game).ball.rect.w
        < 0 := c
    have hx : ¬ (ball_resolve m dt w.g_game).ball.rect.x > ((LOGICAL_WIDTH : Int) : α) := by
      rw [hbw] at hc
      have : (0 : α) ≤ ((LOGICAL_WIDTH : Int) : α) := by norm_num [LOGICAL_WIDTH]
      intro hgt
      linarith
    refine ⟨fun _ => ⟨?_, ?_, ?_⟩, fun hgt => absurd hgt hx, Or.inl ?_⟩
    · show (ball_resolve m dt w.g_game).enemy_score + 1 = _
      rw [hes]
    · exact hps
    · exact lt_of_lt_of_le (by norm_num) hv
    · exact hps
  · rw [h]
    have hv := (reset_positions_vel_x m (-1) { w with g_game := { ball_resolve m dt w.g_game with
      player_score := (ball_resolve m dt w.g_game).player_score + 1 } }).2 (by norm_num)
    refine ⟨fun hlt => absurd hlt c1, fun _ => ⟨?_, ?_, ?_⟩, Or.inr ?_⟩
    · show (ball_resolve m dt w.g_game).player_score + 1 = _
      rw [hps]
    · exact hes
    · exact lt_of_le_of_lt hv (by norm_num)
    · exact hes
  · rw [h]
    exact ⟨fun hlt => absurd hlt c1, fun hgt => absurd hgt c2, Or.inl hps⟩

/-- Witness for C3: a ball that leaves the field on the left gives the enemy
one point and is served to the right. -/
theorem update_ball_scoring_witness :
    (update_ball (Libm.mk Real.sqrt Real.cos Real.sin) (1 / 60)
      (sample_world 0 (sample_state 302.5 ⟨⟨-10, 300, 14, 14⟩, ⟨-600, 0⟩⟩))).g_game.enemy_score
      = 0 + 1 ∧
    (update_ball (Libm.mk Real.sqrt Real.cos Real.sin) (1 / 60)
      (sample_world 0 (sample_state 302.5 ⟨⟨-10, 300, 14, 14⟩, ⟨-600, 0⟩⟩))).g_game.player_score
      = 0 ∧
    0 < (update_ball (Libm.mk Real.sqrt Real.cos Real.sin) (1 / 60)
      (sample_world 0 (sample_state 302.5 ⟨⟨-10, 300, 14, 14⟩, ⟨-600, 0⟩⟩))).g_game.ball.vel.x :=
  (update_ball_scoring (Libm.mk Real.sqrt Real.cos Real.sin) (1 / 60)
    (sample_world 0 (sample_state 302.5 ⟨⟨-10, 300, 14, 14⟩, ⟨-600, 0⟩⟩))
    (by norm_num [sample_world, sample_state])).1
    (by norm_num [ball_resolve, ball_hit_enemy, ball_hit_player, hits_player, hits_enemy,
      intersects, ball_move, ball_integrate, ball_wall_top, ball_wall_bottom, sample_world,
      sample_state, LOGICAL_HEIGHT])

/-- C4 (the code at the failing input): from the menu state that init_game
leaves, the input poll_input returns for a fresh press of the space bar has
startPressed and pausePressed set and quitPressed clear, and one update_game
with it ends in Paused mode, not in Playing: the pause toggle of the same call
undoes the start. -/
theorem update_game_space_in_menu (m : Libm α) (dt : α) (w : World α) :
    (init_game m w).g_game.mode = GameMode.GAME_MENU ∧
    (poll_input space_down no_prev).1.start_pressed = true ∧
    (poll_input space_down no_prev).1.pause_pressed = true ∧
    (poll_input space_down no_prev).1.reset_pressed = false ∧
    (poll_input space_down no_prev).1.quit_pressed = false ∧
    (update_game m (poll_input space_down no_prev).1 dt (init_game m w)).g_game.mode
      = GameMode.GAME_PAUSED := by
  refine ⟨rfl, rfl, rfl, rfl, rfl, ?_⟩
  have hmenu : (init_game m w).g_game.mode = GameMode.GAME_MENU := rfl
  generalize init_game m w = v at hmenu
  have hs : (game_start m (poll_input space_down no_prev).1 v).g_game.mode
      = GameMode.GAME_PLAYING := by
    unfold game_start
    rw [if_pos ⟨rfl, hmenu⟩]
    rfl
  have hp : (game_pause (poll_input space_down no_prev).1
      (game_start m (poll_input space_down no_prev).1 v)).g_game.mode = GameMode.GAME_PAUSED := by
    unfold game_pause
    rw [if_pos ⟨rfl, by rw [hs]; decide⟩]
    simp [hs]
  have hr : game_reset m (poll_input space_down no_prev).1
      (game_pause (poll_input space_down no_prev).1
        (game_start m (poll_input space_down no_prev).1 v)) =
      game_pause (poll_input space_down no_prev).1
        (game_start m (poll_input space_down no_prev).1 v) := by
    unfold game_reset
    rw [if_neg (by decide)]
  unfold update_game
  rw [if_neg (by decide), hr, (game_physics_frame m _ dt _).1, hp]

/-- C5 (counterexample): in the menu state that init_game leaves, a press of
the R key alone (startPressed and quitPressed clear) takes the game to Playing
mode. -/
theorem update_game_menu_idle_counterexample :
    (init_game (Libm.mk Real.sqrt Real.cos Real.sin)
      (sample_world 0 (sample_state 302.5 ⟨⟨633, 353, 14, 14⟩, ⟨0, 0⟩⟩))).g_game.mode
      = GameMode.GAME_MENU ∧
    (poll_input r_down no_prev).1.start_pressed = false ∧
    (poll_input r_down no_prev).1.quit_pressed = false ∧
    (update_game (Libm.mk Real.sqrt Real.cos Real.sin) (poll_input r_down no_prev).1 (1 / 60)
      (init_game (Libm.mk Real.sqrt Real.cos Real.sin)
        (sample_world 0 (sample_state 302.5 ⟨⟨633, 353, 14, 14⟩, ⟨0, 0⟩⟩)))).g_game.mode
      = GameMode.GAME_PLAYING := by
  refine ⟨rfl, rfl, rfl, ?_⟩
  unfold update_game
  rw [if_neg (by decide), (game_physics_frame _ _ _ _).1]
  rw [game_reset_fire _ _ _ rfl]
  rfl

/-- C5 (amended): for every game state in Menu mode and every input with
startPressed, resetPressed and quitPressed clear, update_game changes nothing:
the mode stays Menu and the scores, paddles and ball are unchanged (moveUp,
moveDown and pausePressed are ignored in Menu; resetPressed is not). -/
theorem update_game_menu_idle (m : Libm α) (inp : InputState) (dt : α) (w : World α)
    (hmode : w.g_game.mode = GameMode.GAME_MENU)
    (hstart : inp.start_pressed = false) (hreset : inp.reset_pressed = false)
    (hquit : inp.quit_pressed = false) :
    update_game m inp dt w = w := by
  have h1 : game_start m inp w = w := by
    unfold game_start
    rw [if_neg (by simp [hstart])]
  have h2 : game_pause inp w = w := by
    unfold game_pause
    rw [if_neg (by simp [hmode])]
  have h3 : game_reset m inp w = w := by
    unfold game_reset
    rw [if_neg (by simp [hreset])]
  unfold update_game
  rw [if_neg (by simp [hquit]), h1, h2, h3]
  exact game_physics_idle m inp dt w (by rw [hmode]; decide)

/-- Witness for C5 (amended): the menu state that init_game leaves, with the
up key and the P key down. -/
theorem update_game_menu_idle_witness :
    update_game (Libm.mk Real.sqrt Real.cos Real.sin)
      ⟨true, false, false, true, false, false, false⟩ (1 / 60)
      (init_game (Libm.mk Real.sqrt Real.cos Real.sin)
        (sample_world 0 (sample_state 302.5 ⟨⟨633, 353, 14, 14⟩, ⟨0, 0⟩⟩))) =
      init_game (Libm.mk Real.sqrt Real.cos Real.sin)
        (sample_world 0 (sample_state 302.5 ⟨⟨633, 353, 14, 14⟩, ⟨0, 0⟩⟩)) :=
  update_game_menu_idle (Libm.mk Real.sqrt Real.cos Real.sin)
    ⟨true, false, false, true, false, false, false⟩ (1 / 60)
    (init_game (Libm.mk Real.sqrt Real.cos Real.sin)
      (sample_world 0 (sample_state 302.5 ⟨⟨633, 353, 14, 14⟩, ⟨0, 0⟩⟩))) rfl rfl rfl rfl

/-- C6: for every game state in any mode and every input with resetPressed set
and quitPressed clear, one update_game at the fixed timestep 1/60 ends in
Playing mode with player_score = 0 and enemy_score = 0. -/
theorem update_game_reset (inp : InputState) (w : World ℝ)
    (hreset : inp.reset_pressed = true) (hquit : inp.quit_pressed = false) :
    (update_game (Libm.mk Real.sqrt Real.cos Real.sin) inp FIXED_DT w).g_game.mode
      = GameMode.GAME_PLAYING ∧
    (update_game (Libm.mk Real.sqrt Real.cos Real.sin) inp FIXED_DT w).g_game.player_score = 0 ∧
    (update_game (Libm.mk Real.sqrt Real.cos Real.sin) inp FIXED_DT w).g_game.enemy_score = 0 := by
  unfold update_game
  rw [if_neg (by simp [hquit])]
  generalize game_pause inp (game_start (Libm.mk Real.sqrt Real.cos Real.sin) inp w) = v
  rw [game_reset_fire _ _ _ hreset]
  generalize (if v.rand_seq 0 % 2 ≠ 0 then (1 : Int) else -1) = d
  generalize hr : (rand { v with g_game := { v.g_game with
    player_score := 0, enemy_score := 0, mode := GameMode.GAME_PLAYING } }).2 = r
  have hm : (reset_positions (Libm.mk Real.sqrt Real.cos Real.sin) d r).g_game.mode
      = GameMode.GAME_PLAYING := by rw [← hr]; rfl
  have hp : (reset_positions (Libm.mk Real.sqrt Real.cos Real.sin) d r).g_game.player_score
      = 0 := by rw [← hr]; rfl
  have he : (reset_positions (Libm.mk Real.sqrt Real.cos Real.sin) d r).g_game.enemy_score
      = 0 := by rw [← hr]; rfl
  obtain ⟨r1, r2, r3⟩ := reset_positions_rects (Libm.mk Real.sqrt Real.cos Real.sin) d r
  have hv := abs_le.mp (real_serve_abs d r).1
  generalize reset_positions (Libm.mk Real.sqrt Real.cos Real.sin) d r = u at *
  have hmid := game_physics_mid (Libm.mk Real.sqrt Real.cos Real.sin) inp FIXED_DT u hm
    (by rw [r1, r3]; norm_num [FIXED_DT]; linarith [hv.1])
    (by rw [r2, r3]; norm_num [FIXED_DT]; linarith [hv.2])
    (by rw [r3]; norm_num [FIXED_DT]; linarith [hv.1])
    (by rw [r3]; norm_num [FIXED_DT, LOGICAL_WIDTH]; linarith [hv.2])
  refine ⟨?_, ?_, ?_⟩
  · rw [(game_physics_frame _ inp FIXED_DT u).1, hm]
  · rw [hmid.1, hp]
  · rw [hmid.2, he]

/-- Witness for C6: the R key pressed in a paused game. -/
theorem update_game_reset_witness :
    (update_game (Libm.mk Real.sqrt Real.cos Real.sin)
      ⟨false, false, false, false, true, false, false⟩ FIXED_DT
      (sample_world 7 { sample_state (302.5 : ℝ) ⟨⟨100, 353, 14, 14⟩, ⟨300, 400⟩⟩ with
        mode := GameMode.GAME_PAUSED, player_score := 3 })).g_game.mode = GameMode.GAME_PLAYING ∧
    (update_game (Libm.mk Real.sqrt Real.cos Real.sin)
      ⟨false, false, false, false, true, false, false⟩ FIXED_DT
      (sample_world 7 { sample_state (302.5 : ℝ) ⟨⟨100, 353, 14, 14⟩, ⟨300, 400⟩⟩ with
        mode := GameMode.GAME_PAUSED, player_score := 3 })).g_game.player_score = 0 ∧
    (update_game (Libm.mk Real.sqrt Real.cos Real.sin)
      ⟨false, false, false, false, true, false, false⟩ FIXED_DT
      (sample_world 7 { sample_state (302.5 : ℝ) ⟨⟨100, 353, 14, 14⟩, ⟨300, 400⟩⟩ with
        mode := GameMode.GAME_PAUSED, player_score := 3 })).g_game.enemy_score = 0 :=
  update_game_reset ⟨false, false, false, false, true, false, false⟩
    (sample_world 7 { sample_state (302.5 : ℝ) ⟨⟨100, 353, 14, 14⟩, ⟨300, 400⟩⟩ with
      mode := GameMode.GAME_PAUSED, player_score := 3 }) rfl rfl

/-- C7: for inputs with pausePressed set and resetPressed and quitPressed
clear, update_game takes Playing to Paused and Paused to Playing, so two such
ticks in a row from Paused end in Paused again. -/
theorem update_game_pause_toggle (m : Libm α) (inp inp2 : InputState) (dt dt2 : α) (w : World α)
    (hpause : inp.pause_pressed = true) (hreset : inp.reset_pressed = false)
    (hquit : inp.quit_pressed = false)
    (hpause2 : inp2.pause_pressed = true) (hreset2 : inp2.reset_pressed = false)
    (hquit2 : inp2.quit_pressed = false) :
    (w.g_game.mode = GameMode.GAME_PLAYING →
      (update_game m inp dt w).g_game.mode = GameMode.GAME_PAUSED) ∧
    (w.g_game.mode = GameMode.GAME_PAUSED →
      (update_game m inp dt w).g_game.mode = GameMode.GAME_PLAYING) ∧
    (w.g_game.mode = GameMode.GAME_PAUSED →
      (update_game m inp2 dt2 (update_game m inp dt w)).g_game.mode = GameMode.GAME_PAUSED) := by
  have key : ∀ (i : InputState) (d : α) (v : World α), i.pause_pressed = true →
      i.reset_pressed = false → i.quit_pressed = false →
      (v.g_game.mode = GameMode.GAME_PLAYING →
        (update_game m i d v).g_game.mode = GameMode.GAME_PAUSED) ∧
      (v.g_game.mode = GameMode.GAME_PAUSED →
        (update_game m i d v).g_game.mode = GameMode.GAME_PLAYING) := by
    intro i d v hp hr hq
    unfold update_game
    simp only [hq, Bool.false_eq_true, if_false]
    constructor
    · intro hm
      rw [(game_physics_frame m i d _).1]
      simp [game_reset, game_pause, game_start, hp, hr, hm]
    · intro hm
      rw [(game_physics_frame m i d _).1]
      simp [game_reset, game_pause, game_start, hp, hr, hm]
  refine ⟨(key inp dt w hpause hreset hquit).1, (key inp dt w hpause hreset hquit).2, ?_⟩
  intro hm
  exact (key inp2 dt2 _ hpause2 hreset2 hquit2).1 ((key inp dt w hpause hreset hquit).2 hm)

/-- Witness for C7: the P key pressed twice in a paused game. -/
theorem update_game_pause_toggle_witness :
    (update_game (Libm.mk Real.sqrt Real.cos Real.sin)
      ⟨false, false, false, true, false, false, false⟩ (1 / 60)
      (update_game (Libm.mk Real.sqrt Real.cos Real.sin)
        ⟨false, false, false, true, false, false, false⟩ (1 / 60)
        (sample_world 0 { sample_state (302.5 : ℝ) ⟨⟨633, 353, 14, 14⟩, ⟨300, 400⟩⟩ with
          mode := GameMode.GAME_PAUSED }))).g_game.mode = GameMode.GAME_PAUSED :=
  (update_game_pause_toggle (Libm.mk Real.sqrt Real.cos Real.sin)
    ⟨false, false, false, true, false, false, false⟩
    ⟨false, false, false, true, false, false, false⟩ (1 / 60) (1 / 60)
    (sample_world 0 { sample_state (302.5 : ℝ) ⟨⟨633, 353, 14, 14⟩, ⟨300, 400⟩⟩ with
      mode := GameMode.GAME_PAUSED }) rfl rfl rfl rfl rfl rfl).2.2 rfl

/-- C10: for every serve direction and every random draw, reset_positions
(with exact sin and cos) serves the ball with |vx| >= 0.20 * BALL_SPEED_START
and speed sqrt(vx^2 + vy^2) exactly BALL_SPEED_START, with vx > 0 when
serve_dir >= 0 and vx < 0 otherwise. -/
theorem reset_positions_serve (serve_dir : Int) (w : World ℝ) :
    0.20 * BALL_SPEED_START ≤
      |(reset_positions (Libm.mk Real.sqrt Real.cos Real.sin) serve_dir w).g_game.ball.vel.x| ∧
    Real.sqrt
      ((reset_positions (Libm.mk Real.sqrt Real.cos Real.sin) serve_dir w).g_game.ball.vel.x ^ 2 +
       (reset_positions (Libm.mk Real.sqrt Real.cos Real.sin) serve_dir w).g_game.ball.vel.y ^ 2)
      = BALL_SPEED_START ∧
    (serve_dir ≥ 0 →
      0 < (reset_positions (Libm.mk Real.sqrt Real.cos Real.sin) serve_dir w).g_game.ball.vel.x) ∧
    (¬ serve_dir ≥ 0 →
      (reset_positions (Libm.mk Real.sqrt Real.cos Real.sin) serve_dir w).g_game.ball.vel.x < 0) := by
  obtain ⟨hpos, hneg⟩ := reset_positions_vel_x (Libm.mk Real.sqrt Real.cos Real.sin) serve_dir w
  rw [real_serve_sq, Real.sqrt_sq (by norm_num)]
  simp only [BALL_SPEED_START]
  refine ⟨?_, trivial, fun h => by linarith [hpos h], fun h => by linarith [hneg (not_le.mp h)]⟩
  rcases le_or_lt 0 serve_dir with h | h
  · have := hpos h
    rw [abs_of_pos (by linarith)]
    linarith
  · have := hneg h
    rw [abs_of_neg (by linarith)]
    linarith

/-- C11: with the paddles and the ball at their served sizes and x positions
(player paddle spanning x = 30..48 and 115 tall, enemy paddle at x = 1232,
ball 14 wide),
a ball that moves left (vx < 0) and dt > 0: if after the move and the wall
checks the ball overlaps the player paddle, update_ball leaves the ball at
x = 48 with vx > 0; if it overlaps neither paddle and has not left the field,
update_ball changes its x by exactly vx * dt. -/
theorem update_ball_player_contact (dt : ℝ) (w : World ℝ)
    (hpx : w.g_game.player.rect.x = 30) (hpw : w.g_game.player.rect.w = 18)
    (hph : w.g_game.player.rect.h = 115)
    (hex : w.g_game.enemy.rect.x = 1232) (hbw : w.g_game.ball.rect.w = 14)
    (hvx : w.g_game.ball.vel.x < 0) (hdt : 0 < dt) :
    (intersects (ball_move dt w.g_game).ball.rect w.g_game.player.rect = true →
      (update_ball (Libm.mk Real.sqrt Real.cos Real.sin) dt w).g_game.ball.rect.x = 48 ∧
      0 < (update_ball (Libm.mk Real.sqrt Real.cos Real.sin) dt w).g_game.ball.vel.x) ∧
    (intersects (ball_move dt w.g_game).ball.rect w.g_game.player.rect = false →
      intersects (ball_move dt w.g_game).ball.rect w.g_game.enemy.rect = false →
      0 ≤ w.g_game.ball.rect.x + w.g_game.ball.vel.x * dt + w.g_game.ball.rect.w →
      w.g_game.ball.rect.x + w.g_game.ball.vel.x * dt ≤ ((LOGICAL_WIDTH : Int) : ℝ) →
      (update_ball (Libm.mk Real.sqrt Real.cos Real.sin) dt w).g_game.ball.rect.x =
        w.g_game.ball.rect.x + w.g_game.ball.vel.x * dt) := by
  obtain ⟨a1, a2, _, _, _, a6, _, a8, a9, _⟩ := ball_move_frame dt w.g_game
  constructor
  · intro hover
    have hp : hits_player (ball_move dt w.g_game) = true := by
      unfold hits_player
      rw [a1, a9, hover]
      simp [hvx]
    have hne : (ball_move dt w.g_game).ball.vel.x ≠ 0 := by rw [a9]; exact ne_of_lt hvx
    have hplayer : ball_hit_player (Libm.mk Real.sqrt Real.cos Real.sin) (ball_move dt w.g_game) =
        reflect_ball_from_paddle (Libm.mk Real.sqrt Real.cos Real.sin)
          (ball_move dt w.g_game).player true
          { ball_move dt w.g_game with ball := { (ball_move dt w.g_game).ball with
              rect := { (ball_move dt w.g_game).ball.rect with
                x := (ball_move dt w.g_game).player.rect.x +
                  (ball_move dt w.g_game).player.rect.w } } } := by
      unfold ball_hit_player
      rw [if_pos hp]
    have hvpos := (real_reflect_vel_x (ball_move dt w.g_game).player true
      { ball_move dt w.g_game with ball := { (ball_move dt w.g_game).ball with
          rect := { (ball_move dt w.g_game).ball.rect with
            x := (ball_move dt w.g_game).player.rect.x +
              (ball_move dt w.g_game).player.rect.w } } } hne).1 rfl
    rw [← hplayer] at hvpos
    have hx : (ball_hit_player (Libm.mk Real.sqrt Real.cos Real.sin)
        (ball_move dt w.g_game)).ball.rect.x = 48 := by
      rw [hplayer, reflect_eq]
      simp only [a1, hpx, hpw]
      norm_num
    obtain ⟨_, b2, _, _, _, b6, _, _⟩ :=
      ball_hit_player_frame (Libm.mk Real.sqrt Real.cos Real.sin) (ball_move dt w.g_game)
    have he : hits_enemy (ball_hit_player (Libm.mk Real.sqrt Real.cos Real.sin)
        (ball_move dt w.g_game)) = false := by
      unfold hits_enemy intersects
      rw [b2, a2, hex, hx, b6, a6, hbw]
      norm_num
    have hres : ball_resolve (Libm.mk Real.sqrt Real.cos Real.sin) dt w.g_game =
        ball_hit_player (Libm.mk Real.sqrt Real.cos Real.sin) (ball_move dt w.g_game) := by
      unfold ball_resolve ball_hit_enemy
      rw [if_neg (by simp [he])]
    have hfinal := update_ball_no_score (Libm.mk Real.sqrt Real.cos Real.sin) dt w
      (by rw [hres, hx, b6, a6, hbw]; norm_num)
      (by rw [hres, hx]; norm_num [LOGICAL_WIDTH])
    rw [hfinal, hres]
    exact ⟨hx, hvpos⟩
  · intro hnp _ h3 h4
    have hp : hits_player (ball_move dt w.g_game) = false := by
      unfold hits_player
      rw [a1, hnp]
      simp
    have he : hits_enemy (ball_move dt w.g_game) = false := by
      unfold hits_enemy
      rw [a9]
      simp [not_lt.mpr hvx.le]
    have hres := ball_resolve_no_hit (Libm.mk Real.sqrt Real.cos Real.sin) dt w.g_game hp he
    have hfinal := update_ball_no_score (Libm.mk Real.sqrt Real.cos Real.sin) dt w
      (by rw [hres, a8, a6]; exact not_lt.mpr h3)
      (by rw [hres, a8]; exact not_lt.mpr h4)
    rw [hfinal, hres]
    exact a8

/-- Witness for C11: the ball at the centre of the screen with velocity
(-500, 0) and dt = 1/60 ends 500/60 further left. -/
theorem update_ball_player_contact_witness :
    (update_ball (Libm.mk Real.sqrt Real.cos Real.sin) (1 / 60)
      (sample_world 0 (sample_state 302.5 ⟨⟨633, 353, 14, 14⟩, ⟨-500, 0⟩⟩))).g_game.ball.rect.x =
      633 + (-500) * (1 / 60) :=
  (update_ball_player_contact (1 / 60)
    (sample_world 0 (sample_state 302.5 ⟨⟨633, 353, 14, 14⟩, ⟨-500, 0⟩⟩))
    rfl rfl rfl rfl rfl (by norm_num [sample_world, sample_state]) (by norm_num)).2
    (by norm_num [sample_world, sample_state, LOGICAL_HEIGHT, intersects,
      ball_move, ball_integrate, ball_wall_top, ball_wall_bottom])
    (by norm_num [sample_world, sample_state, LOGICAL_HEIGHT, intersects,
      ball_move, ball_integrate, ball_wall_top, ball_wall_bottom])
    (by norm_num [sample_world, sample_state])
    (by norm_num [sample_world, sample_state, LOGICAL_WIDTH])

/-- C12 (counterexample): a ball that leaves the field on the left gives the
enemy the point, and the served ball does not move towards the player paddle
on the left: it moves towards the enemy paddle. -/
theorem update_ball_serve_side_counterexample :
    (update_ball (Libm.mk Real.sqrt Real.cos Real.sin) (1 / 60)
      (sample_world 0 (sample_state 302.5 ⟨⟨-10, 300, 14, 14⟩, ⟨-600, 0⟩⟩))).g_game.enemy_score
      = 0 + 1 ∧
    ¬ moves_toward
      (update_ball (Libm.mk Real.sqrt Real.cos Real.sin) (1 / 60)
        (sample_world 0 (sample_state 302.5 ⟨⟨-10, 300, 14, 14⟩, ⟨-600, 0⟩⟩))).g_game.ball
      (update_ball (Libm.mk Real.sqrt Real.cos Real.sin) (1 / 60)
        (sample_world 0 (sample_state 302.5 ⟨⟨-10, 300, 14, 14⟩, ⟨-600, 0⟩⟩))).g_game.player := by
  have hres : ball_resolve (Libm.mk Real.sqrt Real.cos Real.sin) (1 / 60)
      (sample_world 0 (sample_state (302.5 : ℝ) ⟨⟨-10, 300, 14, 14⟩, ⟨-600, 0⟩⟩)).g_game =
      sample_state 302.5 ⟨⟨-20, 300, 14, 14⟩, ⟨-600, 0⟩⟩ := by
    simp only [ball_resolve, ball_hit_enemy, ball_hit_player, hits_player, hits_enemy,
      intersects, ball_move, ball_integrate, ball_wall_top, ball_wall_bottom, sample_world,
      sample_state, LOGICAL_HEIGHT]
    norm_num
  unfold update_ball
  rw [hres]
  rcases ball_scoring_cases (Libm.mk Real.sqrt Real.cos Real.sin)
    (World.mk (sample_state (302.5 : ℝ) ⟨⟨-20, 300, 14, 14⟩, ⟨-600, 0⟩⟩)
      (sample_world 0 (sample_state (302.5 : ℝ) ⟨⟨-10, 300, 14, 14⟩, ⟨-600, 0⟩⟩)).running
      (sample_world 0 (sample_state (302.5 : ℝ) ⟨⟨-10, 300, 14, 14⟩, ⟨-600, 0⟩⟩)).rand_seq) with
    ⟨_, h⟩ | ⟨c1, _, _⟩ | ⟨c1, _, _⟩
  · rw [h]
    exact ⟨rfl, ((reset_positions_toward _ 1 _).1 (by norm_num)).2⟩
  · exact absurd (by norm_num [sample_state]) c1
  · exact absurd (by norm_num [sample_state]) c1

/-- C12 (amended): after a point is scored in update_ball the ball is served
towards the player who scored, away from the side it left: when the ball
leaves past the left edge (the enemy scores) the served ball moves towards the
enemy paddle on the right, and when it leaves past the right edge (the player
scores) it moves towards the player paddle on the left. -/
theorem update_ball_serve_side (m : Libm α) (dt : α) (w : World α)
    (hw : 0 ≤ w.g_game.ball.rect.w) :
    ((ball_resolve m dt w.g_game).ball.rect.x + (ball_resolve m dt w.g_game).ball.rect.w < 0 →
      (update_ball m dt w).g_game.enemy_score = w.g_game.enemy_score + 1 ∧
      moves_toward (update_ball m dt w).g_game.ball (update_ball m dt w).g_game.enemy ∧
      ¬ moves_toward (update_ball m dt w).g_game.ball (update_ball m dt w).g_game.player) ∧
    ((ball_resolve m dt w.g_game).ball.rect.x > ((LOGICAL_WIDTH : Int) : α) →
      (update_ball m dt w).g_game.player_score = w.g_game.player_score + 1 ∧
      moves_toward (update_ball m dt w).g_game.ball (update_ball m dt w).g_game.player ∧
      ¬ moves_toward (update_ball m dt w).g_game.ball (update_ball m dt w).g_game.enemy) := by
  obtain ⟨_, _, hps, hes, _, hbw, _, _⟩ := ball_resolve_frame m dt w.g_game
  unfold update_ball
  rcases ball_scoring_cases m { w with g_game := ball_resolve m dt w.g_game } with
    ⟨c, h⟩ | ⟨c1, c2, h⟩ | ⟨c1, c2, h⟩
  · rw [h]
    have hc : (ball_resolve m dt w.g_game).ball.rect.x + (ball_resolve m dt w.g_game).ball.rect.w
        < 0 := c
    have hx : ¬ (ball_resolve m dt w.g_game).ball.rect.x > ((LOGICAL_WIDTH : Int) : α) := by
      rw [hbw] at hc
      have : (0 : α) ≤ ((LOGICAL_WIDTH : Int) : α) := by norm_num [LOGICAL_WIDTH]
      intro hgt
      linarith
    refine ⟨fun _ => ⟨?_, (reset_positions_toward m 1 _).1 (by norm_num)⟩,
      fun hgt => absurd hgt hx⟩
    show (ball_resolve m dt w.g_game).enemy_score + 1 = _
    rw [hes]
  · rw [h]
    refine ⟨fun hlt => absurd hlt c1,
      fun _ => ⟨?_, (reset_positions_toward m (-1) _).2 (by norm_num)⟩⟩
    show (ball_resolve m dt w.g_game).player_score + 1 = _
    rw [hps]
  · rw [h]
    exact ⟨fun hlt => absurd hlt c1, fun hgt => absurd hgt c2⟩

/-- Witness for C12 (amended): a ball that leaves the field on the right gives
the player the point and is served towards the player paddle. -/
theorem update_ball_serve_side_witness :
    (update_ball (Libm.mk Real.sqrt Real.cos Real.sin) (1 / 60)
      (sample_world 0 (sample_state 302.5 ⟨⟨1275, 300, 14, 14⟩, ⟨600, 0⟩⟩))).g_game.player_score
      = 0 + 1 ∧
    moves_toward
      (update_ball (Libm.mk Real.sqrt Real.cos Real.sin) (1 / 60)
        (sample_world 0 (sample_state 302.5 ⟨⟨1275, 300, 14, 14⟩, ⟨600, 0⟩⟩))).g_game.ball
      (update_ball (Libm.mk Real.sqrt Real.cos Real.sin) (1 / 60)
        (sample_world 0 (sample_state 302.5 ⟨⟨1275, 300, 14, 14⟩, ⟨600, 0⟩⟩))).g_game.player ∧
    ¬ moves_toward
      (update_ball (Libm.mk Real.sqrt Real.cos Real.sin) (1 / 60)
        (sample_world 0 (sample_state 302.5 ⟨⟨1275, 300, 14, 14⟩, ⟨600, 0⟩⟩))).g_game.ball
      (update_ball (Libm.mk Real.sqrt Real.cos Real.sin) (1 / 60)
        (sample_world 0 (sample_state 302.5 ⟨⟨1275, 300, 14, 14⟩, ⟨600, 0⟩⟩))).g_game.enemy :=
  (update_ball_serve_side (Libm.mk Real.sqrt Real.cos Real.sin) (1 / 60)
    (sample_world 0 (sample_state 302.5 ⟨⟨1275, 300, 14, 14⟩, ⟨600, 0⟩⟩))
    (by norm_num [sample_world, sample_state])).2
    (by norm_num [ball_resolve, ball_hit_enemy, ball_hit_player, hits_player, hits_enemy,
      intersects, ball_move, ball_integrate, ball_wall_top, ball_wall_bottom, sample_world,
      sample_state, LOGICAL_HEIGHT, LOGICAL_WIDTH])

/-- C18: for every game state and every input with quitPressed set, whatever
the other flags are, update_game sets the running flag of the window to false
and leaves the whole game state unchanged. -/
theorem update_game_quit (m : Libm α) (inp : InputState) (dt : α) (w : World α)
    (hquit : inp.quit_pressed = true) :
    (update_game m inp dt w).running = false ∧
    (update_game m inp dt w).g_game = w.g_game ∧
    (update_game m inp dt w).rand_seq = w.rand_seq := by
  unfold update_game
  rw [if_pos hquit]
  exact ⟨rfl, rfl, rfl⟩

/-- Witness for C18: the escape key pressed together with R and space while
playing. -/
theorem update_game_quit_witness :
    (update_game (Libm.mk Real.sqrt Real.cos Real.sin)
      ⟨true, false, true, true, true, false, true⟩ (1 / 60)
      (sample_world 0 (sample_state 302.5 ⟨⟨633, 353, 14, 14⟩, ⟨300, 400⟩⟩))).running = false ∧
    (update_game (Libm.mk Real.sqrt Real.cos Real.sin)
      ⟨true, false, true, true, true, false, true⟩ (1 / 60)
      (sample_world 0 (sample_state 302.5 ⟨⟨633, 353, 14, 14⟩, ⟨300, 400⟩⟩))).g_game =
      sample_state 302.5 ⟨⟨633, 353, 14, 14⟩, ⟨300, 400⟩⟩ :=
  ⟨(update_game_quit (Libm.mk Real.sqrt Real.cos Real.sin)
      ⟨true, false, true, true, true, false, true⟩ (1 / 60)
      (sample_world 0 (sample_state 302.5 ⟨⟨633, 353, 14, 14⟩, ⟨300, 400⟩⟩)) rfl).1,
   (update_game_quit (Libm.mk Real.sqrt Real.cos Real.sin)
      ⟨true, false, true, true, true, false, true⟩ (1 / 60)
      (sample_world 0 (sample_state 302.5 ⟨⟨633, 353, 14, 14⟩, ⟨300, 400⟩⟩)) rfl).2.1⟩

/-- C19: with resetPressed and quitPressed clear, update_game in Paused mode
with pausePressed clear leaves the whole game state unchanged (whatever
moveUp, moveDown and startPressed are), and update_game in Playing mode with
pausePressed set changes the mode to Paused and nothing else: both paddles,
the ball and both scores are unchanged. -/
theorem update_game_paused_frame (m : Libm α) (inp : InputState) (dt : α) (w : World α)
    (hreset : inp.reset_pressed = false) (hquit : inp.quit_pressed = false) :
    (w.g_game.mode = GameMode.GAME_PAUSED → inp.pause_pressed = false →
      update_game m inp dt w = w) ∧
    (w.g_game.mode = GameMode.GAME_PLAYING → inp.pause_pressed = true →
      update_game m inp dt w =
        { w with g_game := { w.g_game with mode := GameMode.GAME_PAUSED } }) := by
  have h3 : ∀ v : World α, game_reset m inp v = v := by
    intro v
    unfold game_reset
    rw [if_neg (by simp [hreset])]
  constructor
  · intro hmode hpause
    have h1 : game_start m inp w = w := by
      unfold game_start
      rw [if_neg (by simp [hmode])]
    have h2 : game_pause inp w = w := by
      unfold game_pause
      rw [if_neg (by simp [hpause])]
    unfold update_game
    rw [if_neg (by simp [hquit]), h1, h2, h3]
    exact game_physics_idle m inp dt w (by rw [hmode]; decide)
  · intro hmode hpause
    have h1 : game_start m inp w = w := by
      unfold game_start
      rw [if_neg (by simp [hmode])]
    have h2 : game_pause inp w =
        { w with g_game := { w.g_game with mode := GameMode.GAME_PAUSED } } := by
      unfold game_pause
      rw [if_pos ⟨hpause, by rw [hmode]; decide⟩, if_pos hmode]
    unfold update_game
    rw [if_neg (by simp [hquit]), h1, h2, h3]
    exact game_physics_idle m inp dt
      { w with g_game := { w.g_game with mode := GameMode.GAME_PAUSED } }
      (fun h => GameMode.noConfusion h)

/-- Witness for C19: the P key pressed while playing, with the up key held. -/
theorem update_game_paused_frame_witness :
    update_game (Libm.mk Real.sqrt Real.cos Real.sin)
      ⟨true, false, false, true, false, false, false⟩ (1 / 60)
      (sample_world 0 (sample_state 302.5 ⟨⟨633, 353, 14, 14⟩, ⟨300, 400⟩⟩)) =
      { sample_world 0 (sample_state (302.5 : ℝ) ⟨⟨633, 353, 14, 14⟩, ⟨300, 400⟩⟩) with
        g_game := { sample_state (302.5 : ℝ) ⟨⟨633, 353, 14, 14⟩, ⟨300, 400⟩⟩ with
          mode := GameMode.GAME_PAUSED } } :=
  (update_game_paused_frame (Libm.mk Real.sqrt Real.cos Real.sin)
    ⟨true, false, false, true, false, false, false⟩ (1 / 60)
    (sample_world 0 (sample_state 302.5 ⟨⟨633, 353, 14, 14⟩, ⟨300, 400⟩⟩)) rfl rfl).2 rfl rfl

/-- C21: at the fixed timestep 1/60, with ball speed at most BALL_SPEED_MAX
and the paddles and the ball at their served sizes and x positions: a ball
that moves left, starts with its left edge at x >= 48 and after the move and
the wall checks has its left edge left of 48 while it overlaps the player
paddle vertically, ends update_ball at x = 48 with vx > 0; a ball that moves
right, starts with its right edge at x + 14 <= 1232 and after the move has
its right edge right of 1232 while it overlaps the enemy paddle vertically,
ends update_ball at x = 1218 with vx < 0. -/
theorem update_ball_no_tunnel (w : World ℝ)
    (hpx : w.g_game.player.rect.x = 30) (hpw : w.g_game.player.rect.w = 18)
    (hph : w.g_game.player.rect.h = 115)
    (hex : w.g_game.enemy.rect.x = 1232) (hew : w.g_game.enemy.rect.w = 18)
    (heh : w.g_game.enemy.rect.h = 115)
    (hbw : w.g_game.ball.rect.w = 14) (hbh : w.g_game.ball.rect.h = 14)
    (hs : Real.sqrt (w.g_game.ball.vel.x ^ 2 + w.g_game.ball.vel.y ^ 2) ≤ BALL_SPEED_MAX) :
    (w.g_game.ball.vel.x < 0 → 48 ≤ w.g_game.ball.rect.x →
      (ball_move FIXED_DT w.g_game).ball.rect.x < 48 →
      (ball_move FIXED_DT w.g_game).ball.rect.y <
        w.g_game.player.rect.y + w.g_game.player.rect.h →
      (ball_move FIXED_DT w.g_game).ball.rect.y + (ball_move FIXED_DT w.g_game).ball.rect.h >
        w.g_game.player.rect.y →
      (update_ball (Libm.mk Real.sqrt Real.cos Real.sin) FIXED_DT w).g_game.ball.rect.x = 48 ∧
      0 < (update_ball (Libm.mk Real.sqrt Real.cos Real.sin) FIXED_DT w).g_game.ball.vel.x) ∧
    (w.g_game.ball.vel.x > 0 → w.g_game.ball.rect.x + w.g_game.ball.rect.w ≤ 1232 →
      (ball_move FIXED_DT w.g_game).ball.rect.x + (ball_move FIXED_DT w.g_game).ball.rect.w >
        1232 →
      (ball_move FIXED_DT w.g_game).ball.rect.y <
        w.g_game.enemy.rect.y + w.g_game.enemy.rect.h →
      (ball_move FIXED_DT w.g_game).ball.rect.y + (ball_move FIXED_DT w.g_game).ball.rect.h >
        w.g_game.enemy.rect.y →
      (update_ball (Libm.mk Real.sqrt Real.cos Real.sin) FIXED_DT w).g_game.ball.rect.x = 1218 ∧
      (update_ball (Libm.mk Real.sqrt Real.cos Real.sin) FIXED_DT w).g_game.ball.vel.x < 0) := by
  obtain ⟨a1, a2, _, _, _, a6, _, a8, a9, _⟩ := ball_move_frame (FIXED_DT : ℝ) w.g_game
  obtain ⟨s1, s2⟩ := abs_le.mp (real_step_bound w.g_game hs)
  constructor
  · intro hvx hx0 hx1 hy0 hy1
    have hp : hits_player (ball_move FIXED_DT w.g_game) = true := by
      unfold hits_player intersects
      rw [a1, a9, hpx, hpw]
      simp only [Bool.and_eq_true, decide_eq_true_eq]
      refine ⟨hvx, ⟨⟨⟨by linarith, ?_⟩, hy0⟩, hy1⟩⟩
      rw [a8, a6, hbw]
      norm_num at s1
      linarith
    exact real_player_contact FIXED_DT w hpx hpw hex hbw hp
  · intro hvx hx0 hx1 hy0 hy1
    have hp : hits_player (ball_move FIXED_DT w.g_game) = false := by
      unfold hits_player
      rw [a9]
      simp [not_lt.mpr hvx.le]
    have he : hits_enemy (ball_move FIXED_DT w.g_game) = true := by
      unfold hits_enemy intersects
      rw [a2, a9, hex, hew]
      simp only [Bool.and_eq_true, decide_eq_true_eq]
      refine ⟨hvx, ⟨⟨⟨?_, hx1⟩, hy0⟩, hy1⟩⟩
      rw [a8]
      rw [hbw] at hx0
      norm_num at s2
      linarith
    exact real_enemy_contact FIXED_DT w hex hbw hp he

/-- Witness for C21: a ball at x = 50 with velocity (-1000, 0), level with
the served player paddle: one step takes its left edge to 33.3, and
update_ball puts it back at x = 48 moving right. -/
theorem update_ball_no_tunnel_witness :
    (update_ball (Libm.mk Real.sqrt Real.cos Real.sin) FIXED_DT
      (sample_world 0 (sample_state 302.5 ⟨⟨50, 353, 14, 14⟩, ⟨-1000, 0⟩⟩))).g_game.ball.rect.x
      = 48 ∧
    0 < (update_ball (Libm.mk Real.sqrt Real.cos Real.sin) FIXED_DT
      (sample_world 0 (sample_state 302.5 ⟨⟨50, 353, 14, 14⟩, ⟨-1000, 0⟩⟩))).g_game.ball.vel.x :=
  (update_ball_no_tunnel
    (sample_world 0 (sample_state 302.5 ⟨⟨50, 353, 14, 14⟩, ⟨-1000, 0⟩⟩))
    rfl rfl rfl rfl rfl rfl rfl rfl
    (by
      have h : ((-1000 : ℝ) ^ 2 + (0 : ℝ) ^ 2) = 1000 ^ 2 := by norm_num
      simp only [sample_world, sample_state, BALL_SPEED_MAX]
      rw [h, Real.sqrt_sq (by norm_num)]
      norm_num)).1
    (by norm_num [sample_world, sample_state])
    (by norm_num [sample_world, sample_state])
    (by norm_num [sample_world, sample_state, LOGICAL_HEIGHT, FIXED_DT,
      ball_move, ball_integrate, ball_wall_top, ball_wall_bottom])
    (by norm_num [sample_world, sample_state, LOGICAL_HEIGHT, FIXED_DT,
      ball_move, ball_integrate, ball_wall_top, ball_wall_bottom])
    (by norm_num [sample_world, sample_state, LOGICAL_HEIGHT, FIXED_DT,
      ball_move, ball_integrate, ball_wall_top, ball_wall_bottom])

/-- C22: for every paddle with positive height and |vy| <= PADDLE_MAX_SPEED
and every ball with non-zero speed, after reflect_ball_from_paddle the ball
velocity has |vel.y| <= |vel.x|, with vel.x > 0 from the left paddle and
vel.x < 0 from the right paddle. -/
theorem reflect_ball_angle (paddle : Paddle ℝ) (from_left : Bool) (g : GameState ℝ)
    (hh : 0 < paddle.rect.h) (hvy : |paddle.vy| ≤ PADDLE_MAX_SPEED)
    (hs : Real.sqrt (g.ball.vel.x ^ 2 + g.ball.vel.y ^ 2) ≠ 0) :
    |(reflect_ball_from_paddle (Libm.mk Real.sqrt Real.cos Real.sin) paddle from_left
        g).ball.vel.y| ≤
      |(reflect_ball_from_paddle (Libm.mk Real.sqrt Real.cos Real.sin) paddle from_left
        g).ball.vel.x| ∧
    (from_left = true →
      0 < (reflect_ball_from_paddle (Libm.mk Real.sqrt Real.cos Real.sin) paddle from_left
        g).ball.vel.x) ∧
    (from_left = false →
      (reflect_ball_from_paddle (Libm.mk Real.sqrt Real.cos Real.sin) paddle from_left
        g).ball.vel.x < 0) := by
  obtain ⟨hn, _⟩ := real_nlen paddle from_left g
  have hsp := real_speed_pos g hs
  have hny := reflect_ny_abs paddle g hvy
  rw [reflect_eq]
  simp only []
  generalize reflect_nlen (Libm.mk Real.sqrt Real.cos Real.sin) paddle from_left g = n at hn
  generalize reflect_speed (Libm.mk Real.sqrt Real.cos Real.sin) g = s at hsp
  generalize reflect_ny paddle g = y at hny
  have hx : |(if from_left = true then (1 : ℝ) else -1)| = 1 := by
    cases from_left <;> simp
  refine ⟨?_, ?_, ?_⟩
  · rw [abs_mul, abs_div, abs_mul, abs_div, hx]
    apply mul_le_mul_of_nonneg_right _ (abs_nonneg s)
    exact div_le_div_of_nonneg_right hny (abs_nonneg n)
  · intro h
    subst h
    exact mul_pos (div_pos one_pos hn) hsp
  · intro h
    subst h
    exact mul_neg_of_neg_of_pos (div_neg_of_neg_of_pos (by norm_num) hn) hsp

/-- Witness for C22: a ball with velocity (-300, 400) hitting the lower part
of the served player paddle while the paddle moves down at full speed. -/
theorem reflect_ball_angle_witness :
    |(reflect_ball_from_paddle (Libm.mk Real.sqrt Real.cos Real.sin)
        ⟨⟨30, 302.5, 18, 115⟩, 760⟩ true
        (sample_state 302.5 ⟨⟨40, 400, 14, 14⟩, ⟨-300, 400⟩⟩)).ball.vel.y| ≤
      |(reflect_ball_from_paddle (Libm.mk Real.sqrt Real.cos Real.sin)
        ⟨⟨30, 302.5, 18, 115⟩, 760⟩ true
        (sample_state 302.5 ⟨⟨40, 400, 14, 14⟩, ⟨-300, 400⟩⟩)).ball.vel.x| :=
  (reflect_ball_angle ⟨⟨30, 302.5, 18, 115⟩, 760⟩ true
    (sample_state 302.5 ⟨⟨40, 400, 14, 14⟩, ⟨-300, 400⟩⟩)
    (by norm_num) (by norm_num [PADDLE_MAX_SPEED])
    (by
      have h : ((-300 : ℝ) ^ 2 + (400 : ℝ) ^ 2) = 500 ^ 2 := by norm_num
      simp only [sample_state]
      rw [h, Real.sqrt_sq (by norm_num)]
      norm_num)).1

end Theorems

section RenderTheorems

variable {α : Type} [LinearOrderedField α] [FloorRing α]

/-- C13: for every allocated W x H buffer and every rect r, draw_rect stores
color in exactly the pixels (x, y) with max(0, trunc(r.x)) <= x <
min(W, trunc(r.x + r.w)) and max(0, trunc(r.y)) <= y < min(H, trunc(r.y + r.h))
and leaves every other pixel and every other offset unchanged; every such
pixel is inside the buffer (offset y * W + x in [0, W * H)); and a rect that
lies entirely outside [0, W) x [0, H) changes nothing. -/
theorem draw_rect_pixels (r : RectF α) (color : Nat) (W H : Int) (mem : Int → Nat) :
    ∃ mem1 : Int → Nat, draw_rect r color ⟨W, H, some mem⟩ = some ⟨W, H, some mem1⟩ ∧
      (∀ x y : Int, 0 ≤ x → x < W → 0 ≤ y → y < H →
        mem1 (y * W + x) =
          if max 0 (truncf r.x) ≤ x ∧ x < min W (truncf (r.x + r.w)) ∧
             max 0 (truncf r.y) ≤ y ∧ y < min H (truncf (r.y + r.h))
          then color else mem (y * W + x)) ∧
      (∀ j : Int, ¬ rect_pixels r W H j → mem1 j = mem j) ∧
      (∀ j : Int, rect_pixels r W H j → 0 ≤ j ∧ j < W * H) ∧
      (r.x + r.w ≤ 0 ∨ (W : α) ≤ r.x ∨ r.y + r.h ≤ 0 ∨ (H : α) ≤ r.y → mem1 = mem) := by
  obtain ⟨mem1, e, hset, hkeep⟩ := paints_draw_rect r color W H mem
  have hin : ∀ j : Int, rect_pixels r W H j → ∃ x y : Int, 0 ≤ x ∧ x < W ∧ 0 ≤ y ∧ y < H ∧
      max 0 (truncf r.x) ≤ x ∧ x < min W (truncf (r.x + r.w)) ∧
      max 0 (truncf r.y) ≤ y ∧ y < min H (truncf (r.y + r.h)) ∧ j = y * W + x := by
    rintro j ⟨y, hy0, hy1, x, hx0, hx1, hj⟩
    exact ⟨x, y, le_trans (le_max_left _ _) hx0, lt_of_lt_of_le hx1 (min_le_left _ _),
      le_trans (le_max_left _ _) hy0, lt_of_lt_of_le hy1 (min_le_left _ _),
      hx0, hx1, hy0, hy1, hj⟩
  refine ⟨mem1, e, ?_, hkeep, ?_, ?_⟩
  · intro x y hx0 hxW hy0 hyH
    split_ifs with hbox
    · exact hset _ ⟨y, hbox.2.2.1, hbox.2.2.2, x, hbox.1, hbox.2.1, rfl⟩
    · apply hkeep
      intro hj
      obtain ⟨x1, y1, a1, a2, _, _, b1, b2, b3, b4, hj⟩ := hin _ hj
      obtain ⟨ex, ey⟩ := pixel_index_inj hx0 hxW a1 a2 hj
      subst ex
      subst ey
      exact hbox ⟨b1, b2, b3, b4⟩
  · intro j hj
    obtain ⟨x, y, a1, a2, a3, a4, _, _, _, _, hj⟩ := hin j hj
    rw [hj]
    exact pixel_index_bounds a1 a2 a3 a4
  · intro hout
    funext j
    apply hkeep
    intro hj
    obtain ⟨x, y, a1, a2, a3, a4, b1, b2, b3, b4, _⟩ := hin j hj
    rcases hout with h | h | h | h
    · have := truncf_nonpos h
      have := lt_of_lt_of_le b2 (min_le_right _ _)
      linarith
    · have := le_truncf h
      have := le_trans (le_max_right _ _) b1
      linarith
    · have := truncf_nonpos h
      have := lt_of_lt_of_le b4 (min_le_right _ _)
      linarith
    · have := le_truncf h
      have := le_trans (le_max_right _ _) b3
      linarith

/-- C14 (the code at the failing input): after a resize to 1280 x 720 whose
allocation fails, the render state records the size with a null pixel store;
there clear_screen and draw_rect return without a store, but draw_circle for
the ball at the centre of the screen (radius 7) stores through the null
pointer. -/
theorem draw_circle_null_store (color : Nat) (r : RectF α) :
    resize_backbuffer 1280 720 none ⟨0, 0, none⟩ = ⟨1280, 720, none⟩ ∧
    clear_screen color ⟨1280, 720, none⟩ = some ⟨1280, 720, none⟩ ∧
    draw_rect r color ⟨1280, 720, none⟩ = some ⟨1280, 720, none⟩ ∧
    draw_circle (640 : α) 360 7 color ⟨1280, 720, none⟩ = none := by
  refine ⟨rfl, rfl, rfl, ?_⟩
  have h1 : ((640 : α) - 7) = ((633 : Int) : α) := by norm_num
  have h2 : ((640 : α) + 7) = ((647 : Int) : α) := by norm_num
  have h3 : ((360 : α) - 7) = ((353 : Int) : α) := by norm_num
  have h4 : ((360 : α) + 7) = ((367 : Int) : α) := by norm_num
  apply draw_circle_null (640 : α) 360 7 color 1280 720 640 353
  · rw [h1, truncf_intCast]; decide
  · rw [h2, truncf_intCast]; decide
  · rw [h3, truncf_intCast]; decide
  · rw [h4, truncf_intCast]; decide
  · norm_num

/-- C15: for every allocated W x H buffer and every centre (cx, cy) and
radius, draw_circle stores color in exactly the pixels (x, y) of the clipped
bounding box max(0, trunc(cx - radius)) <= x < min(W, trunc(cx + radius)),
max(0, trunc(cy - radius)) <= y < min(H, trunc(cy + radius)) that satisfy
(x - cx)^2 + (y - cy)^2 <= radius^2, and leaves every other pixel and every
other offset unchanged; every such pixel is inside the buffer. -/
theorem draw_circle_pixels (cx cy radius : α) (color : Nat) (W H : Int) (mem : Int → Nat) :
    ∃ mem1 : Int → Nat,
      draw_circle cx cy radius color ⟨W, H, some mem⟩ = some ⟨W, H, some mem1⟩ ∧
      (∀ x y : Int, 0 ≤ x → x < W → 0 ≤ y → y < H →
        mem1 (y * W + x) =
          if max 0 (truncf (cx - radius)) ≤ x ∧ x < min W (truncf (cx + radius)) ∧
             max 0 (truncf (cy - radius)) ≤ y ∧ y < min H (truncf (cy + radius)) ∧
             ((x : α) - cx) ^ 2 + ((y : α) - cy) ^ 2 ≤ radius ^ 2
          then color else mem (y * W + x)) ∧
      (∀ j : Int, ¬ circle_pixels cx cy radius W H j → mem1 j = mem j) ∧
      (∀ j : Int, circle_pixels cx cy radius W H j → 0 ≤ j ∧ j < W * H) := by
  obtain ⟨mem1, e, hset, hkeep⟩ := paints_draw_circle cx cy radius color W H mem
  have hin : ∀ j : Int, circle_pixels cx cy radius W H j →
      ∃ x y : Int, 0 ≤ x ∧ x < W ∧ 0 ≤ y ∧ y < H ∧
      max 0 (truncf (cx - radius)) ≤ x ∧ x < min W (truncf (cx + radius)) ∧
      max 0 (truncf (cy - radius)) ≤ y ∧ y < min H (truncf (cy + radius)) ∧
      ((x : α) - cx) ^ 2 + ((y : α) - cy) ^ 2 ≤ radius ^ 2 ∧ j = y * W + x := by
    rintro j ⟨y, hy0, hy1, x, hx0, hx1, hd, hj⟩
    exact ⟨x, y, le_trans (le_max_left _ _) hx0, lt_of_lt_of_le hx1 (min_le_left _ _),
      le_trans (le_max_left _ _) hy0, lt_of_lt_of_le hy1 (min_le_left _ _),
      hx0, hx1, hy0, hy1, by simpa only [pow_two] using hd, hj⟩
  refine ⟨mem1, e, ?_, hkeep, ?_⟩
  · intro x y hx0 hxW hy0 hyH
    split_ifs with hbox
    · exact hset _ ⟨y, hbox.2.2.1, hbox.2.2.2.1, x, hbox.1, hbox.2.1,
        by simpa only [pow_two] using hbox.2.2.2.2, rfl⟩
    · apply hkeep
      intro hj
      obtain ⟨x1, y1, a1, a2, _, _, b1, b2, b3, b4, b5, hj⟩ := hin _ hj
      obtain ⟨ex, ey⟩ := pixel_index_inj hx0 hxW a1 a2 hj
      subst ex
      subst ey
      exact hbox ⟨b1, b2, b3, b4, b5⟩
  · intro j hj
    obtain ⟨x, y, a1, a2, a3, a4, _, _, _, _, _, hj⟩ := hin j hj
    rw [hj]
    exact pixel_index_bounds a1 a2 a3 a4

/-- C16: for every string, every integer scale and every position (x, y),
text_width(s, scale) = length(s) * 6 * scale, and draw_text changes no offset
other than those of pixels with column c in [x, x + text_width(s, scale)) and
row in [y, y + 7 * scale) that lie in the buffer; on a null pixel store it
changes nothing. -/
theorem draw_text_extent (text : List Char) (x y scale : Int) (color : Nat) (W H : Int)
    (mem : Int → Nat) :
    text_width text scale = (text.length : Int) * 6 * scale ∧
    (∃ mem1 : Int → Nat,
      draw_text α text x y scale color ⟨W, H, some mem⟩ = some ⟨W, H, some mem1⟩ ∧
      ∀ j : Int, ¬ pixel_box x y (text_width text scale) (7 * scale) W H j → mem1 j = mem j) ∧
    draw_text α text x y scale color ⟨W, H, none⟩ = some ⟨W, H, none⟩ := by
  have hw : text_width text scale = (text.length : Int) * 6 * scale := by
    unfold text_width
    rw [text_len_eq, zero_add]
  refine ⟨hw, ?_, draw_text_null text y scale color W H x⟩
  rw [hw]
  exact @keeps_draw_text α _ _ text y scale color W H x mem

/-- C17: get_glyph returns a glyph exactly for the digits, the letters
A C D E F G H I L M N O P Q R S T U V W Y, the colon and the dash; every glyph
has 7 rows, each below 32; and draw_char leaves the render state as it is for
a space and for every character outside that set. -/
theorem get_glyph_support (c : Char) (x y scale : Int) (color : Nat) (rs : RenderState) :
    ((get_glyph c).isSome = true ↔ c ∈ spec_glyph_chars) ∧
    (∀ g : List Nat, get_glyph c = some g → g.length = 7 ∧ ∀ row ∈ g, row < 32) ∧
    (c = ' ' ∨ c ∉ spec_glyph_chars → draw_char α c x y scale color rs = some rs) := by
  refine ⟨get_glyph_isSome c, fun g h => get_glyph_rows c g h, ?_⟩
  rintro (h | h)
  · simp [draw_char, h]
  · have hn : get_glyph c = none := by
      cases hg : get_glyph c with
      | none => rfl
      | some g =>
        exact absurd ((get_glyph_isSome c).mp (by rw [hg]; rfl)) h
    by_cases hsp : c = ' '
    · simp [draw_char, hsp]
    · simp [draw_char, hsp, hn]

/-- C20: for r, g, b in 0..255, rgb(r, g, b) = r + 256 * g + 65536 * b: the
top byte is zero, the three low bytes are r, g, b in that order from the
lowest, and rgb is injective. -/
theorem rgb_layout (r g b : Nat) (hr : r < 256) (hg : g < 256) (hb : b < 256) :
    rgb r g b = r + 256 * g + 65536 * b ∧
    rgb r g b < 2 ^ 24 ∧
    rgb r g b &&& 0xFF = r ∧
    (rgb r g b >>> 8) &&& 0xFF = g ∧
    (rgb r g b >>> 16) &&& 0xFF = b ∧
    (∀ r1 g1 b1 : Nat, r1 < 256 → g1 < 256 → b1 < 256 →
      rgb r1 g1 b1 = rgb r g b → r1 = r ∧ g1 = g ∧ b1 = b) := by
  have e := rgb_eq r g b hr hg hb
  have hm : ∀ v : Nat, v &&& 0xFF = v % 256 := fun v => Nat.and_pow_two_sub_one_eq_mod v 8
  refine ⟨e, ?_, ?_, ?_, ?_, ?_⟩
  · rw [e]; omega
  · rw [hm, e]; omega
  · rw [hm, Nat.shiftRight_eq_div_pow, e]; omega
  · rw [hm, Nat.shiftRight_eq_div_pow, e]; omega
  · intro r1 g1 b1 h1 h2 h3 h
    rw [rgb_eq r1 g1 b1 h1 h2 h3, e] at h
    omega

/-- Witness for C20: the colour of the ball, rgb(245, 85, 85). -/
theorem rgb_layout_witness :
    rgb 245 85 85 = 245 + 256 * 85 + 65536 * 85 ∧ rgb 245 85 85 &&& 0xFF = 245 :=
  ⟨(rgb_layout 245 85 85 (by decide) (by decide) (by decide)).1,
   (rgb_layout 245 85 85 (by decide) (by decide) (by decide)).2.2.1⟩

/-- C23: every character of the six strings the scene renderer draws is a
space or has a glyph, and every line is at most LOGICAL_WIDTH wide at its
scale, so that its centred start x = (LOGICAL_WIDTH - text_width) / 2 is
non-negative and equals the margin left on the right of the line. -/
theorem scene_text_supported :
    ∀ p ∈ [(render_menu_t1, (12 : Int)), (render_menu_t2, 4), (render_menu_t3, 3),
        (render_menu_t4, 3), (render_paused_overlay_p, 7), (render_paused_overlay_c, 3)],
      (∀ c ∈ p.1, c = ' ' ∨ (get_glyph c).isSome = true) ∧
      text_width p.1 p.2 ≤ LOGICAL_WIDTH ∧
      0 ≤ centered_x p.1 p.2 ∧
      centered_x p.1 p.2 = LOGICAL_WIDTH - (centered_x p.1 p.2 + text_width p.1 p.2) := by
  decide

/-- Witness for C23: the first help line of the menu, 30 characters at scale
3, is 540 wide and starts at x = 370. -/
theorem scene_text_supported_witness :
    (∀ c ∈ render_menu_t3, c = ' ' ∨ (get_glyph c).isSome = true) ∧
    text_width render_menu_t3 3 ≤ LOGICAL_WIDTH ∧
    0 ≤ centered_x render_menu_t3 3 ∧
    centered_x render_menu_t3 3 =
      LOGICAL_WIDTH - (centered_x render_menu_t3 3 + text_width render_menu_t3 3) :=
  scene_text_supported (render_menu_t3, 3) (by decide)

end RenderTheorems

end Pong
